import Mathlib

/-!
# Verification of the Confluence → Markdown conversion pipeline

Shallow embedding of `confluence_markdown_exporter/confluence.py`: the
document model (`Page`, `Attachment`, `Space`, `Label`, `User`, `Version`),
the descendant-query loop, the `Page.from_id` fetch wrapper, and the
`Page.Converter` HTML→Markdown engine together with the parts of the
third-party `markdownify` base converter (0.14.x line, the version whose
handler signature `(el, text, parent_tags)` the repository uses) that the
engine inherits.

Conventions of the embedding:
* HTML strings are represented by their parse trees (`Html`); BeautifulSoup
  parsing is the identity on this representation.
* Exceptions are represented by `Except ConvErr`; Python `StopIteration`,
  `ValueError` … are constructors of `ConvErr`.
* Network/config collaborators (`settings`, memoised caches, `os.path`,
  `mimetypes`) are fields of an explicit context `Ctx`, quantified over in
  the theorems.
* Recursion through recovered document fragments is made total with a fuel
  parameter; exhausted fuel is the dedicated error `ConvErr.outOfFuel`.
-/

set_option autoImplicit false
set_option maxHeartbeats 1600000

namespace CME

/-! ## Python-style string helpers -/

/-- Characters stripped by Python `str.strip()` with no argument. -/
def pyWhitespace : List Char := [' ', '\t', '\n', '\r', '\x0b', '\x0c']

def charIn (cs : List Char) (c : Char) : Bool := cs.contains c

/-- Python `s.lstrip(set)`. -/
def lstripChars (set : List Char) (s : String) : String :=
  ⟨s.data.dropWhile (charIn set)⟩

/-- Python `s.rstrip(set)`. -/
def rstripChars (set : List Char) (s : String) : String :=
  ⟨(s.data.reverse.dropWhile (charIn set)).reverse⟩

/-- Python `s.strip(set)`. -/
def stripChars (set : List Char) (s : String) : String :=
  rstripChars set (lstripChars set s)

/-- Python `s.strip()`. -/
def pyStrip (s : String) : String := stripChars pyWhitespace s

def listIsPrefix : List Char → List Char → Bool
  | [], _ => true
  | _ :: _, [] => false
  | a :: as, b :: bs => a == b && listIsPrefix as bs

def listContainsSub (needle : List Char) : List Char → Bool
  | [] => listIsPrefix needle []
  | c :: cs => listIsPrefix needle (c :: cs) || listContainsSub needle cs

/-- Python `needle in hay` on strings (substring containment). -/
def strContainsSub (hay needle : String) : Bool :=
  listContainsSub needle.data hay.data


/-- Python `s.split(sep)` / Lean `splitOn` on character lists (kernel-
computable). -/
def splitOnAuxL (sep : List Char) : Nat → List Char → List Char → List (List Char)
  | 0, _, acc => [acc.reverse]
  | _ + 1, [], acc => [acc.reverse]
  | fuel + 1, c :: cs, acc =>
    if listIsPrefix sep (c :: cs) then
      acc.reverse :: splitOnAuxL sep fuel ((c :: cs).drop sep.length) []
    else splitOnAuxL sep fuel cs (c :: acc)

def pySplit (s sep : String) : List String :=
  if sep.isEmpty then [s]
  else (splitOnAuxL sep.data (s.data.length + 1) s.data []).map (fun l => (⟨l⟩ : String))

/-- Python `s.replace(old, new)` (all occurrences). -/
def replaceAllAux (old new : List Char) : Nat → List Char → List Char
  | 0, _ => []
  | _ + 1, [] => []
  | fuel + 1, c :: cs =>
    if !old.isEmpty && listIsPrefix old (c :: cs) then
      new ++ replaceAllAux old new fuel ((c :: cs).drop old.length)
    else c :: replaceAllAux old new fuel cs

def pyReplace (s old new : String) : String :=
  ⟨replaceAllAux old.data new.data (s.data.length + 1) s.data⟩

def strStartsWith (s p : String) : Bool := listIsPrefix p.data s.data

def strEndsWith (s p : String) : Bool := listIsPrefix p.data.reverse s.data.reverse

def digitsToNat (cs : List Char) : Nat := cs.foldl (fun n c => n * 10 + (c.toNat - 48)) 0

/-- Python `int(s)` for nonnegative decimal literals (`none` models the
`ValueError` on anything else). -/
def pyToNat (s : String) : Option Nat :=
  if !s.isEmpty && s.data.all Char.isDigit then some (digitsToNat s.data) else none

/-- Python `s.replace(old, new, 1)`: replace the first occurrence only. -/
def replaceFirstAux (old new : List Char) : List Char → List Char
  | [] => []
  | c :: cs =>
    if listIsPrefix old (c :: cs) && !old.isEmpty then
      new ++ (c :: cs).drop old.length
    else c :: replaceFirstAux old new cs

def replaceFirst (s old new : String) : String :=
  ⟨replaceFirstAux old.data new.data s.data⟩

/-- Python `s.removesuffix(suf)`. -/
def removesuffix (s suf : String) : String :=
  if strEndsWith s suf && !suf.isEmpty then
    ⟨s.data.take (s.data.length - suf.data.length)⟩
  else s

/-! ## The document model -/

structure Space where
  key : String
  name : String
  description : String
  homepage : Nat
  deriving Repr, DecidableEq

structure Label where
  id : String
  name : String
  prefix_ : String
  deriving Repr, DecidableEq

structure User where
  account_id : String
  username : String
  display_name : String
  public_name : String
  email : String
  deriving Repr, DecidableEq

structure Version where
  number : Nat
  by_ : User
  when : String
  friendly_when : String
  deriving Repr, DecidableEq

structure JiraIssue where
  key : String
  summary : String
  description : Option String
  status : String
  deriving Repr, DecidableEq

/-- Parsed HTML node: the embedding of both the storage strings held by a
`Page` and the trees produced by `BeautifulSoup(..., "html.parser")`. -/
inductive Html where
  | text (s : String)
  | elem (tag : String) (attrs : List (String × String)) (children : List Html)
  deriving Repr

structure Attachment where
  id : String
  title : String
  space : Space
  ancestors : List Nat
  file_size : Nat
  media_type : String
  media_type_description : String
  file_id : String
  collection_name : String
  download_link : String
  comment : String
  version : Version
  deriving Repr, DecidableEq

structure Page where
  id : Nat
  title : String
  space : Space
  ancestors : List Nat
  body : List Html
  body_export : List Html
  editor2 : List Html
  labels : List Label
  attachments : List Attachment
  deriving Repr

/-- `Page.get_attachment_by_id`: Python
`next(a for a in attachments if attachment_id in a.id)` — substring test,
and `next` without default raises `StopIteration` when nothing matches
(modelled by `none`). -/
def Page.get_attachment_by_id (p : Page) (attachment_id : String) : Option Attachment :=
  p.attachments.find? (fun a => strContainsSub a.id attachment_id)

/-- `Page.get_attachment_by_file_id`: `next` without default — `none`
models the `StopIteration` raised when no attachment has the file id. -/
def Page.get_attachment_by_file_id (p : Page) (file_id : String) : Option Attachment :=
  p.attachments.find? (fun a => a.file_id == file_id)

/-- `Page.get_attachments_by_title`. -/
def Page.get_attachments_by_title (p : Page) (title : String) : List Attachment :=
  p.attachments.filter (fun a => a.title == title)

/-! ## `Page.descendants` (claim C5)

The source runs a paged CQL query in a `while start < total_size` loop
wrapped in `try`.  The `except` clauses are:

```
except HTTPError as e:
    if e.response.status_code == 404:
        print("WARNING: ...")
        return []
    return []
except Exception as e:
    print("ERROR: ...")
    return []
```

One paged response is either a result page, an `HTTPError` with a status
code, or some other exception. -/

inductive CqlOutcome where
  | ok (ids : List Nat) (size : Nat) (totalSize : Nat)
  | httpError (status : Nat)
  | exn (msg : String)
  deriving Repr, DecidableEq

/-- The body of `Page.descendants`, one constructor of the `while` loop per
fuel step.  The result type `Except Nat (List Nat)` gives the function a
channel to propagate an HTTP status as an error — the translated code never
uses it, which is exactly what claim C5 is about.  `none` = fuel exhausted
(the Python loop does not terminate structurally). -/
def descendantsGo (fetch : Nat → CqlOutcome) :
    Nat → Nat → Nat → List Nat → Option (Except Nat (List Nat))
  | 0, _, _, _ => none
  | fuel+1, start, total_size, acc =>
    if start < total_size then
      match fetch start with
      | .ok ids size total =>
        let acc := acc ++ ids
        if size = 0 then some (.ok acc)
        else descendantsGo fetch fuel (start + size) total acc
      | .httpError status =>
        -- `if e.response.status_code == 404: return []` … `return []`
        if status = 404 then some (.ok []) else some (.ok [])
      | .exn _ => some (.ok [])
    else some (.ok acc)

/-- `Page.descendants`: `start = 0`, `total_size` initialised to the paging
limit 100 so that the loop is entered. -/
def descendantsModel (fetch : Nat → CqlOutcome) (fuel : Nat) :
    Option (Except Nat (List Nat)) :=
  descendantsGo fetch fuel 0 100 []

/-- A fetcher whose every response is an HTTP 500 error. -/
def fetch500 : Nat → CqlOutcome := fun _ => .httpError 500

/-- A fetcher whose every response is an HTTP 404 error. -/
def fetch404 : Nat → CqlOutcome := fun _ => .httpError 404

/-! ## `Page.from_id` (claim C2)

`Page.from_id` fetches the page record and builds the `Page`; the whole
body is wrapped in `try … except ApiError` which returns a sentinel
placeholder page.  Any exception that is not an `ApiError` (e.g. the
`requests.HTTPError` that `atlassian` raises for non-4xx failures)
propagates to the caller. -/

/-- The raw record `confluence.get_page_by_id` returns, with exactly the
fields `Page.from_json` reads. -/
structure PageData where
  id : Nat
  title : String
  spaceKey : String
  body : List Html
  body_export : List Html
  editor2 : List Html
  labels : List Label
  ancestors : List Nat
  deriving Repr

/-- The collaborators `Page.from_json` calls out to (`Space.from_key` and
`Attachment.from_page_id`, both memoised network fetches). -/
structure FetchCtx where
  spaceFromKey : String → Space
  attachmentsFromPageId : Nat → List Attachment

/-- Outcome of the `confluence.get_page_by_id` call. -/
inductive PageFetch where
  | ok (data : PageData)
  | apiError (msg : String)
  | otherError (msg : String)

/-- `Page.from_json`: field mapping from the raw record; the ancestor list
drops its first element (`[1:]`, the space root). -/
def Page.from_json (fctx : FetchCtx) (d : PageData) : Page :=
  { id := d.id
    title := d.title
    space := fctx.spaceFromKey d.spaceKey
    body := d.body
    body_export := d.body_export
    editor2 := d.editor2
    labels := d.labels
    attachments := fctx.attachmentsFromPageId d.id
    ancestors := d.ancestors.drop 1 }

/-- `Page.from_id` over the outcome of the underlying fetch.  Only
`ApiError` is caught and converted into the placeholder page; any other
exception is re-raised (`Except.error`). -/
def Page.from_id (fctx : FetchCtx) (page_id : Nat) (fetch : PageFetch) :
    Except String Page :=
  match fetch with
  | .ok d => .ok (Page.from_json fctx d)
  | .apiError _ =>
    .ok { id := page_id
          title := "[Error: Page not accessible]"
          space := { key := "", name := "", description := "", homepage := 0 }
          body := []
          body_export := []
          editor2 := []
          labels := []
          attachments := []
          ancestors := [] }
  | .otherError msg => .error msg

/-! ## Converter state and errors -/

/-- A page-property value: `set_page_properties(**props)` receives
`list[str] | str | None`; the `None` case never occurs in the source calls,
so two constructors suffice. -/
inductive PropValue where
  | str (s : String)
  | list (l : List String)
  deriving Repr, DecidableEq

/-- Python truthiness of a property value (`if value:`). -/
def PropValue.truthy : PropValue → Bool
  | .str s => !s.isEmpty
  | .list l => !l.isEmpty

/-- The mutable attributes of a `Page.Converter` instance: `self.page`
(assigned in `__init__`, never re-assigned), `self.page_properties`
(a dict, insertion-ordered), plus the lines `print`ed while converting
(the source logs by printing). -/
structure ConvState where
  page : Page
  page_properties : List (String × PropValue)
  warnings : List String
  deriving Repr

/-- `Converter.__init__`: store the page, `self.page_properties = {}`. -/
def initConvState (p : Page) : ConvState :=
  { page := p, page_properties := [], warnings := [] }

def ConvState.addWarning (s : ConvState) (w : String) : ConvState :=
  { s with warnings := s.warnings ++ [w] }

/-- Insertion-ordered dict update: replace in place or append. -/
def dictInsert (ps : List (String × PropValue)) (k : String) (v : PropValue) :
    List (String × PropValue) :=
  match ps with
  | [] => [(k, v)]
  | (k0, v0) :: rest =>
    if k0 == k then (k, v) :: rest else (k0, v0) :: dictInsert rest k v

/-- Exceptions a conversion can raise. -/
inductive ConvErr where
  | outOfFuel
  | stopIteration
  | valueError (msg : String)
  | attributeError
  | unboundLocal
  deriving Repr, DecidableEq

/-! ## HTML node helpers (BeautifulSoup surface used by the converter) -/

def getAttr (attrs : List (String × String)) (name : String) : Option String :=
  (attrs.find? (fun kv => kv.1 == name)).map (fun kv => kv.2)

def Html.attr (el : Html) (name : String) : Option String :=
  match el with
  | .text _ => none
  | .elem _ attrs _ => getAttr attrs name

def Html.has_attr (el : Html) (name : String) : Bool :=
  (el.attr name).isSome

def Html.tagName : Html → Option String
  | .text _ => none
  | .elem t _ _ => some t

/-- bs4 parses a `class` attribute into a list of whitespace-separated
tokens (the multi-valued attribute). -/
def classList (el : Html) : List String :=
  match el.attr "class" with
  | none => []
  | some s => (pySplit s " ").filter (fun c => !c.isEmpty)

def sq : String := String.singleton (Char.ofNat 39)

/-- Python `str(...)` of a bs4 class list, e.g. `['a', 'b']`; absent
attribute: `el.get("class", "")` is `""`. -/
def pyStrOfClass (el : Html) : String :=
  match el.attr "class" with
  | none => ""
  | some _ =>
    "[" ++ String.intercalate ", " ((classList el).map (fun c => sq ++ c ++ sq)) ++ "]"

mutual
/-- bs4 `find_all`-style preorder search over a node (descendants only are
searched by bs4; callers search a whole parsed document, so including the
node itself at the top is immaterial for forests). -/
def findAllNode (pred : Html → Bool) : Html → List Html
  | .text s => if pred (.text s) then [.text s] else []
  | .elem t a ch =>
    (if pred (.elem t a ch) then [.elem t a ch] else []) ++ findAllForest pred ch
def findAllForest (pred : Html → Bool) : List Html → List Html
  | [] => []
  | n :: ns => findAllNode pred n ++ findAllForest pred ns
end

/-- `find_all(tag, {"class": cls})`: element with the tag whose class list
contains the token. -/
def isTagWithClass (tag cls : String) (el : Html) : Bool :=
  el.tagName == some tag && (classList el).contains cls

mutual
/-- bs4 `get_text()` (no strip): concatenation of all text descendants. -/
def getTextNode : Html → String
  | .text s => s
  | .elem _ _ ch => getTextForest ch
def getTextForest : List Html → String
  | [] => ""
  | n :: ns => getTextNode n ++ getTextForest ns
end

mutual
/-- bs4 `get_text(strip=True)` / `.text` + `.strip()` pattern: each text
fragment stripped, concatenated. -/
def getTextStripNode : Html → String
  | .text s => pyStrip s
  | .elem _ _ ch => getTextStripForest ch
def getTextStripForest : List Html → String
  | [] => ""
  | n :: ns => getTextStripNode n ++ getTextStripForest ns
end

/-- bs4 `el.string`: the sole text child, if the element has exactly one
child and it is (or recursively wraps) a string. -/
def soleString : Html → Option String
  | .text s => some s
  | .elem _ _ [c] => soleString c
  | .elem _ _ _ => none

mutual
/-- Python `str(el)` on a bs4 node: re-serialise the markup. -/
def htmlToString : Html → String
  | .text s => s
  | .elem t attrs ch =>
    "<" ++ t ++ attrsToString attrs ++ ">" ++ htmlForestToString ch ++ "</" ++ t ++ ">"
def htmlForestToString : List Html → String
  | [] => ""
  | n :: ns => htmlToString n ++ htmlForestToString ns
def attrsToString : List (String × String) → String
  | [] => ""
  | (k, v) :: rest => " " ++ k ++ "=\"" ++ v ++ "\"" ++ attrsToString rest
end

/-! ## Settings and collaborator context -/

inductive HrefStyle where
  | absolute
  | relative
  deriving Repr, DecidableEq

/-- The `settings.export` fields the conversion engine reads. -/
structure ExportSettings where
  page_path : String
  attachment_path : String
  page_href : HrefStyle
  attachment_href : HrefStyle
  include_document_title : Bool
  page_breadcrumbs : Bool

/-- External collaborators of the conversion engine, fixed for a run:
memoised caches, configuration, and Python stdlib calls.  Claims about the
converter hold for every such context. -/
structure Ctx where
  settings : ExportSettings
  /-- The memoised `Page.from_id` as seen by the converter: a fixed cache
  state in which lookups succeed (possibly with the C2 placeholder). -/
  from_id : Nat → Page
  /-- The memoised `User.from_accountid`. -/
  user_from_accountid : String → User
  /-- `JiraIssue.from_key`; `Except.error` models the `HTTPError` branch of
  `convert_jira_issue`. -/
  jira_from_key : String → Except Unit JiraIssue
  /-- Modelled from the spec: `utils/export.py` (`sanitize_filename`) is not
  under `src/`; the spec describes it only as filename sanitisation used by
  path templating, so it is kept abstract. -/
  sanitize_filename : String → String
  /-- Modelled from the spec: `utils/export.py` (`sanitize_key`) is not
  under `src/`; abstract key sanitisation, first argument the optional
  separator (`sanitize_key(text, "-")` passes `some "-"`). -/
  sanitize_key : Option String → String → String
  /-- `os.path.relpath`. -/
  relpath : String → String → String
  /-- `mimetypes.guess_extension`. -/
  guess_extension : String → Option String

/-! ## Derived document values -/

/-- `Attachment.extension`: two hardcoded draw.io overrides, then the
generic media-type lookup. -/
def Attachment.extension (ctx : Ctx) (a : Attachment) : String :=
  if a.comment == "draw.io diagram" && a.media_type == "application/vnd.jgraph.mxfile" then
    ".drawio"
  else if a.comment == "draw.io preview" && a.media_type == "image/png" then
    ".drawio.png"
  else (ctx.guess_extension a.media_type).getD ""

def Attachment.filename (ctx : Ctx) (a : Attachment) : String :=
  a.file_id ++ a.extension ctx

def lbrace : Char := Char.ofNat 123
def rbrace : Char := Char.ofNat 125

def isIdentStart (c : Char) : Bool := c.isAlpha || c == '_'
def isIdentChar (c : Char) : Bool := c.isAlphanum || c == '_'

def isIdent (cs : List Char) : Bool :=
  match cs with
  | [] => false
  | c :: rest => isIdentStart c && rest.all isIdentChar

/-- `template.replace("{", "${")`. -/
def replaceBraceDollar : List Char → List Char
  | [] => []
  | c :: cs =>
    if c == lbrace then '$' :: lbrace :: replaceBraceDollar cs
    else c :: replaceBraceDollar cs

/-- Split at the first closing brace: `(before, after)`. -/
def splitAtRBrace : List Char → Option (List Char × List Char)
  | [] => none
  | c :: cs =>
    if c == rbrace then some ([], cs)
    else (splitAtRBrace cs).map (fun pr => (c :: pr.1, pr.2))

/-- `string.Template(...).safe_substitute(vars)`: `$$` is an escaped `$`,
`${ident}` and `$ident` are placeholders, unknown or malformed placeholders
are left untouched.  Fuel = input length (each step consumes a char). -/
def safeSubstituteAux (vars : List (String × String)) : Nat → List Char → List Char
  | 0, _ => []
  | _ + 1, [] => []
  | fuel + 1, c :: cs =>
    if c == '$' then
      match cs with
      | '$' :: rest => '$' :: safeSubstituteAux vars fuel rest
      | d :: ds =>
        if d == lbrace then
          match splitAtRBrace ds with
          | some (name, rest) =>
            if isIdent name then
              match getAttr vars ⟨name⟩ with
              | some v => v.data ++ safeSubstituteAux vars fuel rest
              | none => '$' :: lbrace :: name ++ rbrace :: safeSubstituteAux vars fuel rest
            else '$' :: safeSubstituteAux vars fuel cs
          | none => '$' :: safeSubstituteAux vars fuel cs
        else if isIdentStart d then
          let name := (d :: ds).takeWhile isIdentChar
          let rest := (d :: ds).dropWhile isIdentChar
          match getAttr vars ⟨name⟩ with
          | some v => v.data ++ safeSubstituteAux vars fuel rest
          | none => '$' :: name ++ safeSubstituteAux vars fuel rest
        else '$' :: safeSubstituteAux vars fuel cs
      | [] => ['$']
    else c :: safeSubstituteAux vars fuel cs

def safeSubstitute (vars : List (String × String)) (s : String) : String :=
  ⟨safeSubstituteAux vars (s.data.length * 2 + 2) s.data⟩

/-- `Document._template_vars`: the variables shared by pages and
attachments (ancestor titles resolved through the page cache). -/
def documentTemplateVars (ctx : Ctx) (space : Space) (ancestors : List Nat) :
    List (String × String) :=
  [("space_key", ctx.sanitize_filename space.key),
   ("space_name", ctx.sanitize_filename space.name),
   ("homepage_id", toString space.homepage),
   ("homepage_title", ctx.sanitize_filename (ctx.from_id space.homepage).title),
   ("ancestor_ids", String.intercalate "/" (ancestors.map toString)),
   ("ancestor_titles",
    String.intercalate "/"
      (ancestors.map (fun a => ctx.sanitize_filename (ctx.from_id a).title)))]

/-- `Page._template_vars`. -/
def Page.templateVars (ctx : Ctx) (p : Page) : List (String × String) :=
  documentTemplateVars ctx p.space p.ancestors ++
  [("page_id", toString p.id), ("page_title", ctx.sanitize_filename p.title)]

/-- `Attachment._template_vars`. -/
def Attachment.templateVars (ctx : Ctx) (a : Attachment) : List (String × String) :=
  documentTemplateVars ctx a.space a.ancestors ++
  [("attachment_id", a.id),
   ("attachment_title", ctx.sanitize_filename a.title),
   ("attachment_file_id", ctx.sanitize_filename a.file_id),
   ("attachment_extension", a.extension ctx)]

/-- `Page.export_path`. -/
def Page.export_path (ctx : Ctx) (p : Page) : String :=
  safeSubstitute (p.templateVars ctx) ⟨replaceBraceDollar ctx.settings.page_path.data⟩

/-- `Attachment.export_path`. -/
def Attachment.export_path (ctx : Ctx) (a : Attachment) : String :=
  safeSubstitute (a.templateVars ctx) ⟨replaceBraceDollar ctx.settings.attachment_path.data⟩

/-- `PurePath.parent` of a relative path string. -/
def parentDir (s : String) : String :=
  match (pySplit s "/").dropLast with
  | [] => "."
  | segs => String.intercalate "/" segs

/-- `Converter._get_path_for_href`. -/
def getPathForHref (ctx : Ctx) (page : Page) (path : String) (style : HrefStyle) : String :=
  match style with
  | .absolute => "/" ++ lstripChars ['/'] path
  | .relative => ctx.relpath path (parentDir (Page.export_path ctx page))

/-! ## markdownify base machinery (modelled from markdownify 0.14.x)

The repository's `Page.Converter` subclasses `TableConverter` (a repo file
not under `src/`, spec-modelled below) and `markdownify.MarkdownConverter`.
Options fixed by `Converter.Options`: `bullets = "-"`,
`heading_style = ATX`, `front_matter_indent = 2`,
`macros_to_ignore = {"qc-read-and-understood-signature-box"}`; markdownify
defaults: `escape_asterisks = escape_underscores = True`,
`escape_misc = False`, `wrap = False`, `newline_style = SPACES`. -/

def isHeadingTag (t : String) : Bool :=
  t == "h1" || t == "h2" || t == "h3" || t == "h4" || t == "h5" || t == "h6"

/-- markdownify `should_remove_whitespace_inside`: block-level elements. -/
def removesWhitespaceInsideTag (t : String) : Bool :=
  isHeadingTag t ||
  ["p", "blockquote", "article", "div", "section", "ol", "ul", "li",
   "dl", "dt", "dd", "table", "thead", "tbody", "tfoot",
   "tr", "td", "th"].contains t

def shouldRemoveWsInside : Option Html → Bool
  | some (.elem t _ _) => removesWhitespaceInsideTag t
  | _ => false

/-- markdownify `should_remove_whitespace_outside` (block or `pre`). -/
def shouldRemoveWsOutside : Option Html → Bool
  | some (.elem t _ _) => removesWhitespaceInsideTag t || t == "pre"
  | _ => false

def shouldRemoveWsInsideTag : Option String → Bool
  | some t => removesWhitespaceInsideTag t
  | none => false

/-- Whitespace normalisation of text nodes (`wrap = False`): runs of
whitespace containing a newline collapse to `"\n"`, runs of spaces/tabs
collapse to `" "`. -/
def normalizeWsAux : Nat → List Char → List Char
  | 0, _ => []
  | _ + 1, [] => []
  | fuel + 1, c :: cs =>
    if charIn [' ', '\t', '\r', '\n'] c then
      let run := (c :: cs).takeWhile (charIn [' ', '\t', '\r', '\n'])
      let rest := (c :: cs).dropWhile (charIn [' ', '\t', '\r', '\n'])
      (if run.contains '\n' || run.contains '\r' then '\n' else ' ') :: normalizeWsAux fuel rest
    else c :: normalizeWsAux fuel cs

def normalizeWs (s : String) : String :=
  ⟨normalizeWsAux (s.data.length + 1) s.data⟩

/-- markdownify `escape` with the default options (`escape_misc` off). -/
def escapeMd (s : String) : String :=
  pyReplace (pyReplace s "*" "\\*") "_" "\\_"

/-- Sibling/parent context of a node inside the tree being walked (bs4
nodes carry parent/sibling pointers; the embedding passes them
explicitly). -/
structure NodeCtx where
  parentTag : Option String := none
  parentAttrs : List (String × String) := []
  prev : Option Html := none
  next : Option Html := none
  idx : Nat := 0
  deriving Repr

/-- markdownify `process_text`. -/
def processText (parentTags : List String) (nctx : NodeCtx) (s : String) : String :=
  let t := if parentTags.contains "pre" then s else normalizeWs s
  let t := if parentTags.contains "_noformat" then t else escapeMd t
  let t :=
    if shouldRemoveWsOutside nctx.prev ||
       (shouldRemoveWsInsideTag nctx.parentTag && nctx.prev.isNone) then
      lstripChars [' ', '\t', '\r', '\n'] t
    else t
  if shouldRemoveWsOutside nctx.next ||
     (shouldRemoveWsInsideTag nctx.parentTag && nctx.next.isNone) then
    rstripChars pyWhitespace t
  else t

/-- markdownify `process_tag` child filter: whitespace-only text nodes
adjacent to block-level boundaries are dropped. -/
def canIgnore (parentRemovesInside : Bool) (prev next : Option Html) : Html → Bool
  | .text s =>
    if !(pyStrip s).isEmpty then false
    else if parentRemovesInside && (prev.isNone || next.isNone) then true
    else shouldRemoveWsOutside prev || shouldRemoveWsOutside next
  | .elem _ _ _ => false

def countTrailingNl (s : String) : Nat :=
  (s.data.reverse.takeWhile (fun c => c == '\n')).length

def countLeadingNl (s : String) : Nat :=
  (s.data.takeWhile (fun c => c == '\n')).length

def nlString (n : Nat) : String := ⟨List.replicate n '\n'⟩

/-- markdownify `process_tag` child concatenation: newlines at the boundary
between two children collapse to the larger of the two runs. -/
def mergeChildText (acc next : String) : String :=
  let accStrip := rstripChars ['\n'] acc
  let nextStrip := lstripChars ['\n'] next
  accStrip ++ nlString (max (countTrailingNl acc) (countLeadingNl next)) ++ nextStrip

def mergeChildTexts (inPre : Bool) (strs : List String) : String :=
  if inPre then String.join strs
  else (strs.filter (fun s => !s.isEmpty)).foldl mergeChildText ""

/-- Indent every line with a blockquote marker: `"> "` before nonempty
lines, `">"` alone for empty ones (markdownify `_indent_for_blockquote`). -/
def blockquoteIndent (s : String) : String :=
  String.intercalate "\n"
    ((pySplit s "\n").map (fun line => if line.isEmpty then ">" else "> " ++ line))

/-- markdownify `convert_blockquote`. -/
def convert_blockquote (text : String) (parent_tags : List String) : String :=
  let t := stripChars [' ', '\t', '\r', '\n'] text
  if parent_tags.contains "_inline" then " " ++ t ++ " "
  else if t.isEmpty then "\n"
  else "\n" ++ blockquoteIndent t ++ "\n\n"

/-- markdownify `convert_p` (`wrap` off). -/
def convert_p (text : String) (parent_tags : List String) : String :=
  if parent_tags.contains "_inline" then " " ++ pyStrip text ++ " "
  else
    let t := pyStrip text
    if t.isEmpty then "" else "\n\n" ++ t ++ "\n\n"

/-- markdownify `convert_div` (also used by the repository through
`super().convert_div(...)`): a block-level passthrough. -/
def md_convert_div (text : String) (parent_tags : List String) : String :=
  if parent_tags.contains "_inline" then " " ++ pyStrip text ++ " "
  else
    let t := pyStrip text
    if t.isEmpty then "" else "\n\n" ++ t ++ "\n\n"

/-- markdownify `convert_hn` with `heading_style = ATX`. -/
def convert_hn (n : Nat) (text : String) (parent_tags : List String) : String :=
  if parent_tags.contains "_inline" then text
  else
    let n := max 1 (min 6 n)
    let t := normalizeWs (pyStrip text)
    "\n\n" ++ ⟨List.replicate n '#'⟩ ++ " " ++ t ++ "\n\n"

/-- markdownify `convert_br` (`newline_style = SPACES`). -/
def convert_br (parent_tags : List String) : String :=
  if parent_tags.contains "_inline" then "" else "  \n"

/-- markdownify `convert_hr`. -/
def convert_hr : String := "\n\n---\n\n"

/-- markdownify `chomp`: split leading/trailing whitespace off an inline
element's text. -/
def chomp (text : String) : String × String × String :=
  let pre := if strStartsWith text " " then " " else ""
  let suf := if !text.isEmpty && strEndsWith text " " then " " else ""
  (pre, suf, pyStrip text)

/-- markdownify `abstract_inline_conversion` (`b`/`strong` → `**`,
`em`/`i` → `*`, `del`/`s` → `~~`, `code` → backtick). -/
def mdInlineWrap (marker : String) (text : String) (parent_tags : List String) : String :=
  if parent_tags.contains "_noformat" then text
  else
    let (pre, suf, t) := chomp text
    if t.isEmpty then "" else pre ++ marker ++ t ++ marker ++ suf


/-- Remainder of the list after the first occurrence of `needle`. -/
def subAfter (needle : List Char) : List Char → Option (List Char)
  | [] => if needle.isEmpty then some [] else none
  | c :: cs =>
    if listIsPrefix needle (c :: cs) then some ((c :: cs).drop needle.length)
    else subAfter needle cs

/-- `re.search(r"brush:\s*([^;]+)", params)`: language of a code block. -/
def extractBrush (s : String) : Option String :=
  match subAfter "brush:".data s.data with
  | none => none
  | some rest =>
    let afterWs := rest.dropWhile (charIn pyWhitespace)
    let cap := afterWs.takeWhile (fun c => c != ';')
    if cap.isEmpty then none else some ⟨cap⟩

/-- Characters of a non-greedy `(.+?)` capture up to the next `|`; `.`
does not match a newline, and a missing closing pipe is no match. -/
def takeCapture : List Char → Option (List Char)
  | [] => none
  | c :: cs =>
    if c == '|' then some []
    else if c == '\n' then none
    else (takeCapture cs).map (fun l => c :: l)

/-- `re.search(r"\|diagramName=(.+?)\|", str(el))`: earliest start position
wins, capture is minimal and nonempty. -/
def extractDiagramNameFrom : List Char → Option String
  | [] => none
  | c :: cs =>
    if listIsPrefix "|diagramName=".data (c :: cs) then
      match (c :: cs).drop 13 with
      | [] => extractDiagramNameFrom cs
      | d :: ds =>
        if d == '\n' then extractDiagramNameFrom cs
        else
          match takeCapture ds with
          | some cap => some ⟨d :: cap⟩
          | none => extractDiagramNameFrom cs
    else extractDiagramNameFrom cs

def extractDiagramName (s : String) : Option String :=
  extractDiagramNameFrom s.data

/-! ## `Page.Converter`: the pure handler methods -/

/-- The `alert_type_map` of `convert_alert`, with the `.get(…, "NOTE")`
default. -/
def alertTypeMap (m : String) : String :=
  if m == "info" then "IMPORTANT"
  else if m == "panel" then "NOTE"
  else if m == "tip" then "TIP"
  else if m == "note" then "WARNING"
  else if m == "warning" then "CAUTION"
  else "NOTE"

/-- `Converter.convert_alert`: macro panels become GitHub-style alerts.
(`el["data-macro-name"]` is present whenever the dispatch in `convert_div`
reaches this handler.) -/
def convert_alert (el : Html) (text : String) (parent_tags : List String) : String :=
  let alert_type := alertTypeMap ((el.attr "data-macro-name").getD "")
  "\n> [!" ++ alert_type ++ "]" ++ convert_blockquote text parent_tags

/-- `Converter.convert_hidden_content` (`scroll-ignore` macro). -/
def convert_hidden_content (text : String) (parent_tags : List String) : String :=
  "\n<!--" ++ convert_p text parent_tags ++ "-->\n"

/-- `Converter.convert_pre`. -/
def convert_pre (el : Html) (text : String) : String :=
  if text.isEmpty then ""
  else
    let code_language :=
      match el.attr "data-syntaxhighlighter-params" with
      | none => ""
      | some params => (extractBrush params).getD ""
    "\n\n```" ++ code_language ++ "\n" ++ text ++ "\n```\n\n"

/-- `Converter.convert_sub`. -/
def convert_sub (text : String) : String := "<sub>" ++ text ++ "</sub>"

/-- `Converter.convert_sup`: footnote definition when the element has no
preceding sibling, footnote reference otherwise. -/
def convert_sup (nctx : NodeCtx) (text : String) : String :=
  if nctx.prev.isNone then "[^" ++ text ++ "]:"
  else "[^" ++ text ++ "]"

/-- `Converter.convert_time`. -/
def convert_time (el : Html) (text : String) : String :=
  match el.attr "datetime" with
  | some dt => dt
  | none => text

/-- `Converter.convert_user_name`. -/
def convert_user_name (name : String) : String :=
  pyStrip (removesuffix (removesuffix name "(Unlicensed)") "(Deactivated)")

/-- `Converter.convert_user`. -/
def convert_user (user : User) : String :=
  convert_user_name user.display_name

/-- `Converter.convert_user_mention`. -/
def convert_user_mention (ctx : Ctx) (el : Html) (text : String) : String :=
  match el.attr "data-account-id" with
  | some accId => convert_user (ctx.user_from_accountid accId)
  | none => convert_user_name text

/-- Indent every line of a list item body by the bullet width
(markdownify `_indent_for_li`). -/
def liIndent (w : Nat) (s : String) : String :=
  String.intercalate "\n"
    ((pySplit s "\n").map (fun line =>
      if line.isEmpty then "" else ⟨List.replicate w ' '⟩ ++ line))

/-- markdownify `convert_li` with `bullets = "-"` (a single bullet
character, so the `ul` nesting depth is irrelevant). -/
def md_convert_li (text : String) (nctx : NodeCtx) : String :=
  let t := pyStrip text
  if t.isEmpty then "\n"
  else
    let bullet :=
      if nctx.parentTag == some "ol" then
        let start :=
          match getAttr nctx.parentAttrs "start" with
          | some s => (pyToNat s).getD 1
          | none => 1
        toString (start + nctx.idx) ++ "."
      else "-"
    let bullet := bullet ++ " "
    let w := bullet.length
    let t := liIndent w t
    bullet ++ ⟨t.data.drop w⟩ ++ "\n"

/-- `Converter.convert_li`: Confluence task-list items are patched into
GitHub task-list syntax by replacing the first bullet occurrence. -/
def convert_li (el : Html) (text : String) (nctx : NodeCtx) : String :=
  let md := md_convert_li text nctx
  if el.has_attr "data-inline-task-id" then
    let is_checked := (classList el).contains "checked"
    replaceFirst md "- " (if is_checked then "- [x] " else "- [ ] ")
  else md

/-- `Converter.convert_img`.  An `img` without (or with an empty)
`data-media-id` yields the empty string; otherwise the attachment lookup
uses `next` and raises `StopIteration` when no attachment matches.  On
success the source sets `el["src"]` to the resolved path, removes
`"_inline"` from `parent_tags` ("Always show images") and calls the
markdownify `convert_img`, which then renders unconditionally. -/
def convert_img (ctx : Ctx) (page : Page) (el : Html) : Except ConvErr String :=
  let file_id := (el.attr "data-media-id").getD ""
  if file_id.isEmpty then .ok ""
  else
    match page.get_attachment_by_file_id file_id with
    | none => .error .stopIteration
    | some attachment =>
      let path := getPathForHref ctx page (attachment.export_path ctx)
        ctx.settings.attachment_href
      let src := pyReplace path " " "%20"
      let alt := (el.attr "alt").getD ""
      let title := (el.attr "title").getD ""
      let title_part :=
        if title.isEmpty then "" else " \"" ++ pyReplace title "\"" "\\\"" ++ "\""
      .ok ("![" ++ alt ++ "](" ++ src ++ title_part ++ ")")

/-- `Converter.convert_drawio`: requires both the named diagram source and
its `.png` preview to exist as attachments, else an inline comment. -/
def convert_drawio (ctx : Ctx) (page : Page) (el : Html) : String :=
  match extractDiagramName (htmlToString el) with
  | none => ""
  | some drawio_name =>
    let preview_name := drawio_name ++ ".png"
    let drawio_attachments := page.get_attachments_by_title drawio_name
    let preview_attachments := page.get_attachments_by_title preview_name
    match drawio_attachments, preview_attachments with
    | [], _ => "\n<!-- Drawio diagram `" ++ drawio_name ++ "` not found -->\n\n"
    | _ :: _, [] => "\n<!-- Drawio diagram `" ++ drawio_name ++ "` not found -->\n\n"
    | d :: _, pv :: _ =>
      let drawio_path := getPathForHref ctx page (d.export_path ctx)
        ctx.settings.attachment_href
      let preview_path := getPathForHref ctx page (pv.export_path ctx)
        ctx.settings.attachment_href
      let drawio_image_embedding :=
        "![" ++ drawio_name ++ "](" ++ pyReplace preview_path " " "%20" ++ ")"
      let drawio_link :=
        "[" ++ drawio_image_embedding ++ "](" ++ pyReplace drawio_path " " "%20" ++ ")"
      "\n" ++ drawio_link ++ "\n\n"

/-- `Converter.convert_page_link`: `ValueError` on a missing/zero id, else
a link to the cached page's export path. -/
def convert_page_link (ctx : Ctx) (page : Page) (page_id : Nat) : Except ConvErr String :=
  if page_id == 0 then .error (.valueError "Page link does not have valid page_id.")
  else
    let p := ctx.from_id page_id
    let page_path := getPathForHref ctx page (Page.export_path ctx p) ctx.settings.page_href
    .ok ("[" ++ p.title ++ "](" ++ pyReplace page_path " " "%20" ++ ")")

/-- `Converter.convert_attachment_link`.  With neither a `data-media-id`
nor a `data-linked-resource-id` the Python local `attachment` is unbound
(`UnboundLocalError`). -/
def convert_attachment_link (ctx : Ctx) (page : Page) (el : Html) : Except ConvErr String :=
  let render (a : Attachment) : Except ConvErr String :=
    let path := getPathForHref ctx page (a.export_path ctx) ctx.settings.attachment_href
    .ok ("[" ++ a.title ++ "](" ++ pyReplace path " " "%20" ++ ")")
  let fid := (el.attr "data-media-id").getD ""
  if !fid.isEmpty then
    match page.get_attachment_by_file_id fid with
    | none => .error .stopIteration
    | some a => render a
  else
    let aid := (el.attr "data-linked-resource-id").getD ""
    if !aid.isEmpty then
      match page.get_attachment_by_id aid with
      | none => .error .stopIteration
      | some a => render a
    else .error .unboundLocal

/-- markdownify `convert_a` (`autolinks` on, `default_title` off). -/
def md_convert_a (el : Html) (text : String) (parent_tags : List String) : String :=
  if parent_tags.contains "_noformat" then text
  else
    let (pre, suf, t) := chomp text
    if t.isEmpty then ""
    else
      let href := (el.attr "href").getD ""
      let title := (el.attr "title").getD ""
      if pyReplace t "\\_" "_" == href && title.isEmpty then "<" ++ href ++ ">"
      else
        let title_part :=
          if title.isEmpty then "" else " \"" ++ pyReplace title "\"" "\\\"" ++ "\""
        if href.isEmpty then t
        else pre ++ "[" ++ t ++ "](" ++ href ++ title_part ++ ")" ++ suf

/-- Python `str(el.get("class"))` (no default): absent attribute prints
`None`. -/
def pyStrOfClassN (el : Html) : String :=
  match el.attr "class" with
  | none => "None"
  | some _ => pyStrOfClass el

/-- Python `str(el.get(name))`: the raw attribute value, `None` when
absent. -/
def pyStrOfAttr (el : Html) (name : String) : String :=
  (el.attr name).getD "None"

/-- `Converter.set_page_properties`: falsy values are ignored, keys are
sanitised, the dict is updated in insertion order. -/
def set_page_properties (ctx : Ctx) (s : ConvState)
    (props : List (String × PropValue)) : ConvState :=
  props.foldl
    (fun st kv =>
      if kv.2.truthy then
        { st with page_properties :=
            dictInsert st.page_properties (ctx.sanitize_key none kv.1) kv.2 }
      else st)
    s

/-- `re.search(r"/wiki/.+?/pages/(\d+)", href)`: scan `/pages/` positions
after `/wiki/` with a nonempty newline-free gap, then read the digits. -/
def findPagesId : Nat → List Char → Option Nat
  | 0, _ => none
  | _ + 1, [] => none
  | fuel + 1, c :: cs =>
    if c == '\n' then none
    else if listIsPrefix "/pages/".data cs then
      let ds := (cs.drop 7).takeWhile Char.isDigit
      if ds.isEmpty then findPagesId fuel cs else some (digitsToNat ds)
    else findPagesId fuel cs

def extractWikiPageId : Nat → List Char → Option Nat
  | 0, _ => none
  | _ + 1, [] => none
  | fuel + 1, c :: cs =>
    if listIsPrefix "/wiki/".data (c :: cs) then
      match findPagesId (cs.length + 1) ((c :: cs).drop 6) with
      | some n => some n
      | none => extractWikiPageId fuel cs
    else extractWikiPageId fuel cs

def wikiPageId (href : String) : Option Nat :=
  extractWikiPageId (href.data.length + 1) href.data

/-- markdownify `convert_list` (`ul`/`ol`). -/
def md_convert_list (text : String) (nctx : NodeCtx) (parent_tags : List String) : String :=
  let before_paragraph :=
    match nctx.next with
    | some (.elem t _ _) => !(t == "ul" || t == "ol")
    | some (.text _) => true
    | none => false
  if parent_tags.contains "li" then "\n" ++ rstripChars pyWhitespace text
  else "\n\n" ++ text ++ (if before_paragraph then "\n" else "")

def renderTableRow (cells : List String) : String :=
  "| " ++ String.intercalate " | " cells ++ " |"

def tableSeparatorRow (n : Nat) : String :=
  renderTableRow (List.replicate n "---")

/-- The `parent_tags` set a node passes down to its children:
the node's own tag, plus markdownify's `_inline` pseudo-tag under headings
and table cells and `_noformat` under preformatted elements. -/
def childParentTags (t : String) (parentTags : List String) : List String :=
  let tags := parentTags ++ [t]
  let tags := if isHeadingTag t || t == "td" || t == "th" then tags ++ ["_inline"] else tags
  if t == "pre" || t == "code" || t == "kbd" || t == "samp" then tags ++ ["_noformat"] else tags

/-! The engine proper.  The source methods recurse through
`self.process_tag` / `self.convert`; the embedding is in open-recursion
style: each handler takes the recursive converter `pchild` (the bound
`self.process_tag`) as an argument, and `processTag` ties the knot by
structural recursion on fuel, so that every definition is
kernel-computable. -/

abbrev ConvResult := Except ConvErr (String × ConvState)

/-- The error-propagation scheme every stateful conversion uses: run one
step, feed its output and state to the continuation, propagate
exceptions. -/
def andThen {α β : Type} (r : Except ConvErr (α × ConvState))
    (f : α → ConvState → Except ConvErr (β × ConvState)) :
    Except ConvErr (β × ConvState) :=
  match r with
  | .error e => .error e
  | .ok (a, s1) => f a s1


/-- The type of the bound `self.process_tag`. -/
abbrev ConvFun := Html → NodeCtx → List String → ConvState → ConvResult

/-- The type of the bound `self.convert_a`. -/
abbrev AFun := Html → String → NodeCtx → List String → ConvState → ConvResult

/-- The child loop of markdownify `process_tag`: skip ignorable whitespace
nodes, keep sibling context, collect converted strings in order. -/
def processChildrenWith (pchild : ConvFun) (pt : String)
    (pattrs : List (String × String)) :
    Option Html → Nat → List Html → List String → ConvState →
    Except ConvErr (List String × ConvState)
  | _, _, [], _, s => .ok ([], s)
  | prev, idx, c :: cs, childTags, s =>
    if canIgnore (removesWhitespaceInsideTag pt) prev cs.head? c then
      processChildrenWith pchild pt pattrs (some c) (idx + 1) cs childTags s
    else
      let nctx : NodeCtx :=
        { parentTag := some pt, parentAttrs := pattrs, prev := prev,
          next := cs.head?, idx := idx }
      andThen (pchild c nctx childTags s) (fun txt s1 =>
        andThen (processChildrenWith pchild pt pattrs (some c) (idx + 1) cs childTags s1)
          (fun rest s2 => .ok (txt :: rest, s2)))

/-- `Converter.convert(html)` — parse and process a document root
(`[document]` has no conversion function, children merge as a block). -/
def selfConvertWith (pchild : ConvFun) (nodes : List Html) (s : ConvState) : ConvResult :=
  andThen (processChildrenWith pchild "[document]" [] none 0 nodes ["[document]"] s)
    (fun strs s1 => .ok (mergeChildTexts false strs, s1))

/-- The dict comprehension of `convert_page_properties`: keep rows with
exactly two cells as `(label text, converted cell)` pairs; any other row is
skipped without converting anything. -/
def goRowsWith (sc : List Html → ConvState → ConvResult) :
    List (List Html) → ConvState →
    Except ConvErr (List (String × PropValue) × ConvState)
  | [], s => .ok ([], s)
  | row :: rest, s =>
    match row with
    | [c0, c1] =>
      andThen (sc [c1] s) (fun val s1 =>
        andThen (goRowsWith sc rest s1) (fun pairs s2 =>
          .ok ((getTextStripNode c0, PropValue.str (pyStrip val)) :: pairs, s2)))
    | _ => goRowsWith sc rest s

/-- `Converter.convert_page_properties` (`details` macro): two-cell table
rows become page properties; the handler returns `None`, which the parent
child loop drops exactly like the empty string. -/
def convert_page_propertiesWith (ctx : Ctx) (pchild : ConvFun) (el : Html)
    (s : ConvState) : ConvResult :=
  let rows := (findAllNode (fun n => n.tagName == some "tr") el).map
    (fun tr => findAllNode (fun n => n.tagName == some "th" || n.tagName == some "td") tr)
  if rows.isEmpty then .ok ("", s)
  else
    andThen (goRowsWith (selfConvertWith pchild) rows s)
      (fun pairs s1 => .ok ("", set_page_properties ctx s1 pairs))

/-- `Converter.convert_toc`: recover the rendered fragment from the export
body; zero or multiple matches degrade to the unchanged text plus a
warning. -/
def convert_tocWith (pchild : ConvFun) (_el : Html) (text : String)
    (parentTags : List String) (s : ConvState) : ConvResult :=
  match findAllForest (isTagWithClass "div" "toc-macro") s.page.body_export with
  | [] => .ok (text, s.addWarning "Could not find TOC macro. Ignoring.")
  | [t] => pchild t {} parentTags s
  | _ => .ok (text, s.addWarning "Multiple TOC macros are not supported. Ignoring.")

/-- `Converter.convert_jira_table`: same recovery pattern as the TOC
macro, over `div.jira-table` fragments. -/
def convert_jira_tableWith (pchild : ConvFun) (_el : Html) (text : String)
    (parentTags : List String) (s : ConvState) : ConvResult :=
  match findAllForest (isTagWithClass "div" "jira-table") s.page.body_export with
  | [] => .ok (text, s.addWarning "No Jira table found. Ignoring.")
  | [t] => pchild t {} parentTags s
  | _ => .ok (text, s.addWarning "Multiple Jira tables are not supported. Ignoring.")

/-- `Converter.convert_expand_container`. -/
def convert_expand_containerWith (pchild : ConvFun) (el : Html)
    (parentTags : List String) (s : ConvState) : ConvResult :=
  let summary_text :=
    match (findAllNode (isTagWithClass "span" "expand-control-text") el).head? with
    | some e => pyStrip (getTextNode e)
    | none => "Click here to expand..."
  let contentRes : ConvResult :=
    match (findAllNode (isTagWithClass "div" "expand-content") el).head? with
    | some ce => andThen (pchild ce {} parentTags s) (fun txt s1 => .ok (pyStrip txt, s1))
    | none => .ok ("", s)
  andThen contentRes (fun content s1 =>
    .ok ("\n<details>\n<summary>" ++ summary_text ++ "</summary>\n\n" ++ content ++
         "\n\n</details>\n\n", s1))

/-- `Converter.convert_jira_issue`.  Without a `data-jira-key` the source
does `process_tag(el.find("a", class_="jira-issue-key"))`, an
`AttributeError` if that link is missing; an issue-service `HTTPError`
falls back to the bare key. -/
def convert_jira_issueWith (ctx : Ctx) (pchild : ConvFun) (el : Html) (text : String)
    (parentTags : List String) (s : ConvState) : ConvResult :=
  let issue_key := (el.attr "data-jira-key").getD ""
  let link := (findAllNode (isTagWithClass "a" "jira-issue-key") el).head?
  if issue_key.isEmpty then
    match link with
    | some l => pchild l {} parentTags s
    | none => .error .attributeError
  else
    match link with
    | none => .ok (text, s)
    | some l =>
      let href := pyStrOfAttr l "href"
      match ctx.jira_from_key issue_key with
      | .ok issue =>
        .ok ("[[" ++ issue.key ++ "] " ++ issue.summary ++ "](" ++ href ++ ")", s)
      | .error _ => .ok ("[[" ++ issue_key ++ "]](" ++ href ++ ")", s)

/-- `Converter.convert_span`: only the inline `jira` macro is special. -/
def convert_spanWith (ctx : Ctx) (pchild : ConvFun) (el : Html) (text : String)
    (parentTags : List String) (s : ConvState) : ConvResult :=
  if el.attr "data-macro-name" == some "jira" then
    convert_jira_issueWith ctx pchild el text parentTags s
  else .ok (text, s)

def goTableCellsWith (sc : List Html → ConvState → ConvResult) :
    List Html → ConvState → Except ConvErr (List String × ConvState)
  | [], s => .ok ([], s)
  | cell :: rest, s =>
    let contents := match cell with | .elem _ _ ch => ch | .text t => [.text t]
    andThen (sc contents s) (fun txt s1 =>
      andThen (goTableCellsWith sc rest s1) (fun cells s2 =>
        .ok (pyReplace (pyStrip txt) "\n" " " :: cells, s2)))

def goTableRowsWith (sc : List Html → ConvState → ConvResult) :
    List (List Html) → ConvState → Except ConvErr (List (List String) × ConvState)
  | [], s => .ok ([], s)
  | row :: rest, s =>
    andThen (goTableCellsWith sc row s) (fun cells s1 =>
      andThen (goTableRowsWith sc rest s1) (fun rows s2 => .ok (cells :: rows, s2)))

/-- Modelled from the spec: `utils/table_converter.py` (`TableConverter`,
the superclass providing `convert_table` for plain tables) is not under
`src/`; §4.2 specifies only the "standard Markdown mapping" for tables.
Render each row as a pipe-delimited line with a separator after the first
row; cell contents are converted recursively. -/
def tableConvertWith (pchild : ConvFun) (el : Html) (s : ConvState) : ConvResult :=
  let rows := (findAllNode (fun n => n.tagName == some "tr") el).map
    (fun tr => findAllNode (fun n => n.tagName == some "th" || n.tagName == some "td") tr)
  andThen (goTableRowsWith (selfConvertWith pchild) rows s) (fun rendered s1 =>
    match rendered with
    | [] => .ok ("", s1)
    | first :: rest =>
      .ok ("\n\n" ++ renderTableRow first ++ "\n" ++ tableSeparatorRow first.length ++
           String.join (rest.map (fun r => "\n" ++ renderTableRow r)) ++ "\n\n", s1))

/-- `Converter.convert_page_properties_report`: locate the matching
`data-cql` table in the export body. -/
def convert_page_properties_reportWith (pchild : ConvFun) (el : Html)
    (s : ConvState) : ConvResult :=
  let data_cql := (el.attr "data-cql").getD ""
  if data_cql.isEmpty then .ok ("", s)
  else
    match (findAllForest
        (fun n => n.tagName == some "table" && n.attr "data-cql" == some data_cql)
        s.page.body_export).head? with
    | none => .ok ("", s)
    | some t => tableConvertWith pchild t s

/-- `Converter.convert_table`: a `metadata-summary-macro` table delegates
to the property-report recovery, anything else to the table converter. -/
def convert_tableWith (pchild : ConvFun) (el : Html) (_text : String)
    (_parentTags : List String) (s : ConvState) : ConvResult :=
  if (classList el).contains "metadata-summary-macro" then
    convert_page_properties_reportWith pchild el s
  else tableConvertWith pchild el s

/-- `Converter.convert_attachments`: build a file/modified table over the
page's attachments and convert it (the source serialises it to HTML and
re-parses; the embedding constructs the tree directly). -/
def convert_attachmentsWith (ctx : Ctx) (pchild : ConvFun) (el : Html) (text : String)
    (parentTags : List String) (s : ConvState) : ConvResult :=
  let file_header_text :=
    match (findAllNode (isTagWithClass "th" "filename-column") el).head? with
    | some h => pyStrip (getTextNode h)
    | none => "File"
  let modified_header_text :=
    match (findAllNode (isTagWithClass "th" "modified-column") el).head? with
    | some h => pyStrip (getTextNode h)
    | none => "Modified"
  let mkPath (a : Attachment) : String :=
    pyReplace (getPathForHref ctx s.page (a.export_path ctx) ctx.settings.attachment_href)
      " " "%20"
  let rows := s.page.attachments.map (fun att =>
    Html.elem "tr" []
      [.elem "td" [] [.text ("[" ++ att.title ++ "](" ++ mkPath att ++ ")")],
       .elem "td" []
         [.text (att.version.friendly_when ++ " by " ++ convert_user att.version.by_)]])
  let tableEl := Html.elem "table" []
    (Html.elem "tr" []
      [.elem "th" [] [.text file_header_text], .elem "th" [] [.text modified_header_text]]
      :: rows)
  andThen (convert_tableWith pchild tableEl text parentTags s)
    (fun tbl s1 => .ok ("\n\n" ++ tbl ++ "\n", s1))

/-- `Converter.convert_column_layout`: two or more `div.cell` children
become a single-row table, fewer fall back to the div default. -/
def convert_column_layoutWith (pchild : ConvFun) (el : Html) (text : String)
    (parentTags : List String) (s : ConvState) : ConvResult :=
  let cells := findAllNode (isTagWithClass "div" "cell") el
  if cells.length < 2 then .ok (md_convert_div text parentTags, s)
  else
    let tableEl := Html.elem "table" []
      [Html.elem "tr" [] (cells.map (fun c => Html.elem "td" [] [c]))]
    convert_tableWith pchild tableEl text parentTags s

/-- The CSS-class dispatch `convert_div` falls back to when no (or no
known) macro name is present: the `class_handlers` loop, in insertion
order, then the markdownify block default. -/
def convert_div_classDispatch (pchild : ConvFun) (el : Html) (text : String)
    (parentTags : List String) (s : ConvState) : ConvResult :=
  if strContainsSub (pyStrOfClass el) "expand-container" then
    convert_expand_containerWith pchild el parentTags s
  else if strContainsSub (pyStrOfClass el) "columnLayout" then
    convert_column_layoutWith pchild el text parentTags s
  else .ok (md_convert_div text parentTags, s)

/-- `Converter.convert_div`: macro-name dispatch first, then CSS-class
dispatch, then the markdownify block default. -/
def convert_divWith (ctx : Ctx) (pchild : ConvFun) (el : Html) (text : String)
    (nctx : NodeCtx) (parentTags : List String) (s : ConvState) : ConvResult :=
  -- `macro_name = str(el["data-macro-name"])`, inlined
  if el.has_attr "data-macro-name" then
    if (el.attr "data-macro-name").getD "" == "qc-read-and-understood-signature-box" then
      .ok ("", s)
    else if (el.attr "data-macro-name").getD "" == "panel" ||
            (el.attr "data-macro-name").getD "" == "info" ||
            (el.attr "data-macro-name").getD "" == "note" ||
            (el.attr "data-macro-name").getD "" == "tip" ||
            (el.attr "data-macro-name").getD "" == "warning" then
      .ok (convert_alert el text parentTags, s)
    else if (el.attr "data-macro-name").getD "" == "details" then
      convert_page_propertiesWith ctx pchild el s
    else if (el.attr "data-macro-name").getD "" == "drawio" then
      .ok (convert_drawio ctx s.page el, s)
    else if (el.attr "data-macro-name").getD "" == "scroll-ignore" then
      .ok (convert_hidden_content text parentTags, s)
    else if (el.attr "data-macro-name").getD "" == "toc" then
      convert_tocWith pchild el text parentTags s
    else if (el.attr "data-macro-name").getD "" == "jira" then
      convert_jira_tableWith pchild el text parentTags s
    else if (el.attr "data-macro-name").getD "" == "attachments" then
      convert_attachmentsWith ctx pchild el text parentTags s
    else convert_div_classDispatch pchild el text parentTags s
  else convert_div_classDispatch pchild el text parentTags s

/-- `Converter.convert_a`: the link-resolution priority chain; the
"create page" fallback re-enters `convert_a` on an anchor recovered from
the raw `editor2` body, bounded by fuel. -/
def convert_a (ctx : Ctx) : Nat → AFun
  | 0 => fun _ _ _ _ _ => .error .outOfFuel
  | fuel + 1 => fun el text nctx parentTags s =>
    if strContainsSub (pyStrOfClassN el) "user-mention" then
      .ok (convert_user_mention ctx el text, s)
    else if strContainsSub (pyStrOfAttr el "href") "createpage.action" ||
            strContainsSub (pyStrOfClassN el) "createlink" then
      match (findAllForest
          (fun n => n.tagName == some "a" && soleString n == some text)
          s.page.editor2).head? with
      | some fallback => convert_a ctx fuel fallback text nctx parentTags s
      | none => .ok ("[[" ++ text ++ "]]", s)
    else if strContainsSub (pyStrOfAttr el "data-linked-resource-type") "page" &&
            !((el.attr "data-linked-resource-id").getD "").isEmpty &&
            (el.attr "data-linked-resource-id").getD "" != "null" then
      let page_id := (el.attr "data-linked-resource-id").getD ""
      match pyToNat page_id with
      | some n =>
        match convert_page_link ctx s.page n with
        | .error e => .error e
        | .ok out => .ok (out, s)
      | none => .error (.valueError "invalid literal for int()")
    else if strContainsSub (pyStrOfAttr el "data-linked-resource-type") "attachment" then
      match convert_attachment_link ctx s.page el with
      | .error e => .error e
      | .ok out => .ok (out, s)
    else
      match wikiPageId ((el.attr "href").getD "") with
      | some n =>
        match convert_page_link ctx s.page n with
        | .error e => .error e
        | .ok out => .ok (out, s)
      | none =>
        if strStartsWith ((el.attr "href").getD "") "#" then
          .ok ("[" ++ text ++ "](#" ++ ctx.sanitize_key (some "-") text ++ ")", s)
        else .ok (md_convert_a el text parentTags, s)

/-- The tag-to-handler dispatch: the repository's overrides (`div`, `span`,
`a`, `img`, `table`, `li`, `pre`, `time`, `sub`, `sup`) and the markdownify
defaults for the remaining tags; tags with no conversion function pass
their text through. -/
def convertTagWith (ctx : Ctx) (pchild : ConvFun) (aF : AFun) (el : Html) (text : String)
    (nctx : NodeCtx) (parentTags : List String) (s : ConvState) : ConvResult :=
  match el.tagName with
  | none => .ok (text, s)
  | some t =>
    if t == "div" then convert_divWith ctx pchild el text nctx parentTags s
    else if t == "span" then convert_spanWith ctx pchild el text parentTags s
    else if t == "a" then aF el text nctx parentTags s
    else if t == "img" then
      match convert_img ctx s.page el with
      | .error e => .error e
      | .ok out => .ok (out, s)
    else if t == "table" then convert_tableWith pchild el text parentTags s
    else if t == "li" then .ok (convert_li el text nctx, s)
    else if t == "pre" then .ok (convert_pre el text, s)
    else if t == "time" then .ok (convert_time el text, s)
    else if t == "sub" then .ok (convert_sub text, s)
    else if t == "sup" then .ok (convert_sup nctx text, s)
    else if t == "p" then .ok (convert_p text parentTags, s)
    else if t == "blockquote" then .ok (convert_blockquote text parentTags, s)
    else if t == "h1" then .ok (convert_hn 1 text parentTags, s)
    else if t == "h2" then .ok (convert_hn 2 text parentTags, s)
    else if t == "h3" then .ok (convert_hn 3 text parentTags, s)
    else if t == "h4" then .ok (convert_hn 4 text parentTags, s)
    else if t == "h5" then .ok (convert_hn 5 text parentTags, s)
    else if t == "h6" then .ok (convert_hn 6 text parentTags, s)
    else if t == "br" then .ok (convert_br parentTags, s)
    else if t == "hr" then .ok (convert_hr, s)
    else if t == "b" || t == "strong" then .ok (mdInlineWrap "**" text parentTags, s)
    else if t == "em" || t == "i" then .ok (mdInlineWrap "*" text parentTags, s)
    else if t == "del" || t == "s" then .ok (mdInlineWrap "~~" text parentTags, s)
    else if t == "code" || t == "kbd" || t == "samp" then
      .ok (mdInlineWrap "`" text parentTags, s)
    else if t == "ul" || t == "ol" then .ok (md_convert_list text nctx parentTags, s)
    else if t == "script" || t == "style" then .ok ("", s)
    else .ok (text, s)

/-- markdownify `process_tag` on one node: convert the children, merge
their texts, then apply the tag's conversion function.  Fuel decreases on
every recursion into recovered fragments; `ConvErr.outOfFuel` is an
artefact of the embedding, never of the program. -/
def processTag (ctx : Ctx) : Nat → ConvFun
  | 0 => fun _ _ _ _ => .error .outOfFuel
  | fuel + 1 => fun el nctx parentTags s =>
    match el with
    | .text str => .ok (processText parentTags nctx str, s)
    | .elem t attrs ch =>
      andThen (processChildrenWith (processTag ctx fuel) t attrs none 0 ch
          (childParentTags t parentTags) s) (fun strs s1 =>
        convertTagWith ctx (processTag ctx fuel) (convert_a ctx fuel) (.elem t attrs ch)
          (mergeChildTexts (t == "pre" || parentTags.contains "pre") strs) nctx parentTags s1)

/-! Named instances tying each handler to the fuel-indexed recursion, under
the source's method names. -/

def processChildren (ctx : Ctx) (fuel : Nat) := processChildrenWith (processTag ctx fuel)

def selfConvert (ctx : Ctx) (fuel : Nat) := selfConvertWith (processTag ctx fuel)

def goRows (ctx : Ctx) (fuel : Nat) := goRowsWith (selfConvert ctx fuel)

def convert_page_properties (ctx : Ctx) (fuel : Nat) :=
  convert_page_propertiesWith ctx (processTag ctx fuel)

def convert_toc (ctx : Ctx) (fuel : Nat) := convert_tocWith (processTag ctx fuel)

def convert_jira_table (ctx : Ctx) (fuel : Nat) := convert_jira_tableWith (processTag ctx fuel)

def convert_expand_container (ctx : Ctx) (fuel : Nat) :=
  convert_expand_containerWith (processTag ctx fuel)

def convert_jira_issue (ctx : Ctx) (fuel : Nat) :=
  convert_jira_issueWith ctx (processTag ctx fuel)

def convert_span (ctx : Ctx) (fuel : Nat) := convert_spanWith ctx (processTag ctx fuel)

def tableConvert (ctx : Ctx) (fuel : Nat) := tableConvertWith (processTag ctx fuel)

def convert_page_properties_report (ctx : Ctx) (fuel : Nat) :=
  convert_page_properties_reportWith (processTag ctx fuel)

def convert_table (ctx : Ctx) (fuel : Nat) := convert_tableWith (processTag ctx fuel)

def convert_attachments (ctx : Ctx) (fuel : Nat) :=
  convert_attachmentsWith ctx (processTag ctx fuel)

def convert_column_layout (ctx : Ctx) (fuel : Nat) :=
  convert_column_layoutWith (processTag ctx fuel)

def convert_div (ctx : Ctx) (fuel : Nat) := convert_divWith ctx (processTag ctx fuel)

/-! ## Front matter and document assembly -/

/-- `Converter.labels`. -/
def labelsOf (p : Page) : List String := p.labels.map (fun l => "#" ++ l.name)

/-- Modelled: `yaml.dump` (third-party PyYAML) restricted to the values the
converter stores — keys sorted, string values inline, list values as
top-level `- ` items — followed by the newline PyYAML terminates with. -/
def yamlDumpEntry (kv : String × PropValue) : String :=
  match kv.2 with
  | .str v => kv.1 ++ ": " ++ v
  | .list l => kv.1 ++ ":\n" ++ String.intercalate "\n" (l.map (fun x => "- " ++ x))

def yamlDump (props : List (String × PropValue)) : String :=
  String.intercalate "\n"
    ((props.mergeSort (fun a b => a.1 < b.1 || a.1 == b.1)).map yamlDumpEntry) ++ "\n"

/-- `re.sub(r"^( *)(- )", indent…)`: push root-level list items right by
the front-matter indent. -/
def indentListItems (indent : Nat) (yml : String) : String :=
  String.intercalate "\n" ((pySplit yml "\n").map (fun line =>
    let sp := line.data.takeWhile (fun c => c == ' ')
    let rest := line.data.dropWhile (fun c => c == ' ')
    if listIsPrefix "- ".data rest then
      (⟨sp⟩ : String) ++ (⟨List.replicate indent ' '⟩ : String) ++ (⟨rest⟩ : String)
    else line))

/-- `Converter.front_matter` (`front_matter_indent = 2`): set the `tags`
property from the page labels, then render — the empty string when no
property was ever set. -/
def front_matter (ctx : Ctx) (s : ConvState) : String × ConvState :=
  let s1 := set_page_properties ctx s [("tags", PropValue.list (labelsOf s.page))]
  if s1.page_properties.isEmpty then ("", s1)
  else
    let yml := pyStrip (yamlDump s1.page_properties)
    ("---\n" ++ indentListItems 2 yml ++ "\n---\n", s1)

/-- `Converter.breadcrumbs`: ancestor links joined by `" > "`, trailing
newline. -/
def breadcrumbs (ctx : Ctx) (page : Page) : Except ConvErr String :=
  match page.ancestors.mapM (convert_page_link ctx page) with
  | .error e => .error e
  | .ok links => .ok (String.intercalate " > " links ++ "\n")

/-- `Page.html`: optionally prepend an `h1` with the title. -/
def Page.htmlForest (ctx : Ctx) (p : Page) : List Html :=
  if ctx.settings.include_document_title then Html.elem "h1" [] [.text p.title] :: p.body
  else p.body

/-- `Converter.markdown` on a converter instance: convert the body, then
render front matter (and breadcrumbs when enabled) around it. -/
def converterMarkdown (ctx : Ctx) (fuel : Nat) (s : ConvState) :
    Except ConvErr (String × ConvState) :=
  andThen (selfConvert ctx fuel (s.page.htmlForest ctx) s) (fun md_body s1 =>
    if ctx.settings.page_breadcrumbs then
      match breadcrumbs ctx (front_matter ctx s1).2.page with
      | .error e => .error e
      | .ok bc =>
        .ok ((front_matter ctx s1).1 ++ "\n" ++ bc ++ "\n" ++ md_body ++ "\n",
          (front_matter ctx s1).2)
    else
      .ok ((front_matter ctx s1).1 ++ "\n" ++ md_body ++ "\n", (front_matter ctx s1).2))

/-- `Page.markdown`: a fresh `Converter` instance is created for the page
and its `markdown` property computed. -/
def page_markdown (ctx : Ctx) (fuel : Nat) (p : Page) : Except ConvErr String :=
  match converterMarkdown ctx fuel (initConvState p) with
  | .error e => .error e
  | .ok (out, _) => .ok out

/-! ## Concrete instances used by witnesses and counterexamples -/

def space0 : Space := { key := "SP", name := "Space", description := "", homepage := 0 }

def user0 : User :=
  { account_id := "", username := "", display_name := "", public_name := "", email := "" }

def version0 : Version := { number := 1, by_ := user0, when := "", friendly_when := "" }

def pageEmpty : Page :=
  { id := 1, title := "T", space := space0, ancestors := [], body := [],
    body_export := [], editor2 := [], labels := [], attachments := [] }

def settings0 : ExportSettings :=
  { page_path := "{page_title}.md",
    attachment_path := "{attachment_file_id}{attachment_extension}",
    page_href := .absolute, attachment_href := .absolute,
    include_document_title := false, page_breadcrumbs := false }

def ctx0 : Ctx :=
  { settings := settings0, from_id := fun _ => pageEmpty,
    user_from_accountid := fun _ => user0, jira_from_key := fun _ => .error (),
    sanitize_filename := id, sanitize_key := fun _ k => k,
    relpath := fun p _ => p, guess_extension := fun _ => none }

/-- An attachment whose file id is `"A"`, titled `"Other"`. -/
def attachA : Attachment :=
  { id := "att1", title := "Other", space := space0, ancestors := [], file_size := 0,
    media_type := "image/png", media_type_description := "", file_id := "A",
    collection_name := "", download_link := "", comment := "", version := version0 }

/-- A page holding only `attachA`. -/
def pageA : Page := { pageEmpty with attachments := [attachA] }

/-- `<img data-media-id="X">`: no attachment of `pageA` has file id X. -/
def imgX : Html := .elem "img" [("data-media-id", "X")] []

/-- `<img src="x.png">` with no `data-media-id`. -/
def imgNoId : Html := .elem "img" [("src", "x.png")] []

/-- `<div data-macro-name="warning"><p>careful</p></div>`. -/
def warnDiv : Html :=
  .elem "div" [("data-macro-name", "warning")] [.elem "p" [] [.text "careful"]]

/-- A page whose body is just the unresolvable image. -/
def pageImgX : Page := { pageA with body := [imgX] }

/-- A drawio macro div mentioning `diagramName=Foo` in its serialised
parameters. -/
def drawioDiv : Html :=
  .elem "div" [("data-macro-name", "drawio")]
    [.text "ac:name=drawio|diagramName=Foo|revision=1"]


def tocFrag : Html := .elem "div" [("class", "toc-macro")] [.elem "p" [] [.text "here"]]
def tocDiv : Html := .elem "div" [("data-macro-name", "toc")] []
def pageToc0 : Page := pageEmpty
def pageToc1 : Page := { pageEmpty with body_export := [tocFrag] }
def pageToc2 : Page := { pageEmpty with body_export := [tocFrag, tocFrag] }

def detailsDiv : Html :=
  .elem "div" [("data-macro-name", "details")]
    [.elem "table" [] [
      .elem "tr" [] [.elem "th" [] [.text "Owner"], .elem "td" [] [.text "Alice"]],
      .elem "tr" [] [.elem "td" [] [.text "single"]],
      .elem "tr" [] [.elem "th" [] [.text "a"], .elem "td" [] [.text "b"], .elem "td" [] [.text "c"]]]]

/-- The collaborators of `Page.from_json` fixed to trivial values. -/
def fctx0 : FetchCtx :=
  { spaceFromKey := fun _ => space0, attachmentsFromPageId := fun _ => [] }

/-- A conversion result leaves the converter's `self.page` untouched:
whenever it succeeds, the final state carries the same page as the initial
state (claim C4). -/
def PreservesPage {α : Type} (s : ConvState) (r : Except ConvErr (α × ConvState)) : Prop :=
  ∀ (a : α) (s2 : ConvState), r = .ok (a, s2) → s2.page = s.page

/-! ## Theorems for the spec claims -/

/-- C10: an `img` element with no `data-media-id` attribute converts to the
empty string, whatever its other attributes — the image is dropped. -/
theorem c10_theorem :
    ∀ (ctx : Ctx) (p : Page) (el : Html),
      el.attr "data-media-id" = none → convert_img ctx p el = Except.ok "" := by
  intro ctx p el h
  unfold convert_img
  rw [h]
  rfl

theorem c10_witness : convert_img ctx0 pageA imgNoId = Except.ok "" :=
  c10_theorem ctx0 pageA imgNoId rfl

/-- C1 counterexample: an `img` whose `data-media-id` matches no attachment
file id makes `convert_img` raise `StopIteration` (the bare `next` in
`get_attachment_by_file_id`), and that exception aborts the whole page
conversion — `Page.markdown` on a page containing such an image errors
instead of returning a string, contrary to the claimed degrade-in-place
behaviour. -/
theorem c1_counterexample :
    convert_img ctx0 pageA imgX = Except.error ConvErr.stopIteration ∧
    page_markdown ctx0 40 pageImgX = Except.error ConvErr.stopIteration := ⟨rfl, rfl⟩

/-- C1 amended: only an `img` without a `data-media-id` degrades (to the
empty string); an `img` whose `data-media-id` value matches no attachment
file id on the page raises `StopIteration`, aborting the page
conversion rather than degrading to a comment or placeholder. -/
theorem c1_theorem :
    (∀ (ctx : Ctx) (p : Page) (el : Html),
      el.attr "data-media-id" = none → convert_img ctx p el = Except.ok "") ∧
    (∀ (ctx : Ctx) (p : Page) (el : Html) (fid : String),
      el.attr "data-media-id" = some fid → fid.isEmpty = false →
      p.get_attachment_by_file_id fid = none →
      convert_img ctx p el = Except.error ConvErr.stopIteration) := by
  constructor
  · intro ctx p el h
    unfold convert_img
    rw [h]
    rfl
  · intro ctx p el fid h1 h2 h3
    unfold convert_img
    rw [h1]
    simp [h2, h3]

theorem c1_witness :
    convert_img ctx0 pageA imgX = Except.error ConvErr.stopIteration :=
  c1_theorem.2 ctx0 pageA imgX "X" rfl rfl rfl

/-- C2 counterexample: a fetch failure that is not an `ApiError` (here the
`HTTPError` a 500 response raises) propagates out of `Page.from_id` —
no placeholder page is returned, contrary to the claim that every failed
fetch yields the inaccessible-page placeholder. -/
theorem c2_counterexample :
    Page.from_id fctx0 7 (.otherError "HTTPError: 500 Server Error") =
      Except.error "HTTPError: 500 Server Error" := rfl

/-- C2 amended: `Page.from_id` returns the sentinel placeholder page (title
`[Error: Page not accessible]`, empty bodies/labels/attachments/ancestors)
only for fetch failures raised as `ApiError`; any other exception
propagates to the caller. -/
theorem c2_theorem :
    (∀ (fctx : FetchCtx) (pid : Nat) (msg : String),
      Page.from_id fctx pid (.apiError msg) =
        Except.ok
          { id := pid, title := "[Error: Page not accessible]",
            space := { key := "", name := "", description := "", homepage := 0 },
            body := [], body_export := [], editor2 := [], labels := [],
            attachments := [], ancestors := [] }) ∧
    (∀ (fctx : FetchCtx) (pid : Nat) (msg : String),
      Page.from_id fctx pid (.otherError msg) = Except.error msg) :=
  ⟨fun _ _ _ => rfl, fun _ _ _ => rfl⟩

/-- C5 counterexample: a descendant query whose every response is an HTTP
500 error returns the empty result list — the error is swallowed
(`return []` in the non-404 branch), not propagated as the claim states. -/
theorem c5_counterexample :
    descendantsModel fetch500 5 = some (Except.ok []) ∧
    (descendantsModel fetch500 5 = some (Except.error 500)) = False := by
  have h0 : descendantsModel fetch500 5 = some (Except.ok []) := rfl
  refine ⟨h0, ?_⟩
  simp [h0]

/-- C5 amended: a 404 is treated as "no results", and so is every other
HTTP error and every unexpected exception — the query never propagates an
error; any failure (at any iteration) yields the empty list. -/
theorem c5_theorem :
    (∀ (fetch : Nat → CqlOutcome) (fuel start total : Nat) (acc : List Nat),
      descendantsGo fetch fuel start total acc = none ∨
      ∃ ids, descendantsGo fetch fuel start total acc = some (Except.ok ids)) ∧
    (∀ fuel : Nat, descendantsModel fetch404 (fuel + 1) = some (Except.ok [])) ∧
    (∀ fuel : Nat, descendantsModel fetch500 (fuel + 1) = some (Except.ok [])) := by
  refine ⟨?_, fun _ => rfl, fun _ => rfl⟩
  intro fetch fuel
  induction fuel with
  | zero => intro start total acc; exact Or.inl rfl
  | succ f ih =>
    intro start total acc
    rw [descendantsGo]
    by_cases h : start < total
    · simp only [if_pos h]
      cases hf : fetch start with
      | ok ids size totalSize =>
        by_cases hs : size = 0
        · exact Or.inr ⟨acc ++ ids, by simp [hs]⟩
        · simpa [hs] using ih (start + size) totalSize (acc ++ ids)
      | httpError status =>
        by_cases h4 : status = 404 <;> simp [h4]
      | exn msg => exact Or.inr ⟨[], rfl⟩
    · exact Or.inr ⟨acc, by simp [if_neg h]⟩

/-- C7: a drawio macro naming a diagram for which either the source
attachment or the `.png` preview attachment is missing emits exactly the
inline not-found comment (padded by the blank-line separation) and nothing
else for that element. -/
theorem c7_theorem :
    ∀ (ctx : Ctx) (page : Page) (el : Html) (n : String),
      extractDiagramName (htmlToString el) = some n →
      (page.get_attachments_by_title n = [] ∨
        page.get_attachments_by_title (n ++ ".png") = []) →
      convert_drawio ctx page el =
        "\n<!-- Drawio diagram `" ++ n ++ "` not found -->\n\n" := by
  intro ctx page el n h1 h2
  rcases h2 with h2 | h2
  · simp [convert_drawio, h1, h2]
  · cases hd : page.get_attachments_by_title n with
    | nil => simp [convert_drawio, h1, hd]
    | cons a as => simp [convert_drawio, h1, hd, h2]

theorem c7_witness :
    convert_drawio ctx0 pageA drawioDiv =
      "\n<!-- Drawio diagram `Foo` not found -->\n\n" :=
  c7_theorem ctx0 pageA drawioDiv "Foo" rfl (Or.inl rfl)

/-- C8: `set_page_properties` ignores falsy values, and a page with no
labels and no accumulated property-table entries renders an empty front
matter — no `---` block at all. -/
theorem c8_theorem :
    (∀ (ctx : Ctx) (s : ConvState) (kvs : List (String × PropValue)),
      (∀ kv ∈ kvs, kv.2.truthy = false) → set_page_properties ctx s kvs = s) ∧
    (∀ (ctx : Ctx) (s : ConvState), s.page_properties = [] → s.page.labels = [] →
      (front_matter ctx s).1 = "") := by
  constructor
  · intro ctx s kvs h
    induction kvs generalizing s with
    | nil => rfl
    | cons kv rest ih =>
      have hkv := h kv (by simp)
      have hrest : ∀ kv2 ∈ rest, kv2.2.truthy = false := fun kv2 hm => h kv2 (by simp [hm])
      unfold set_page_properties at ih ⊢
      simpa [hkv] using ih s hrest
  · intro ctx s h1 h2
    unfold front_matter
    simp [set_page_properties, labelsOf, h2, PropValue.truthy, h1]

theorem c8_witness :
    set_page_properties ctx0 (initConvState pageEmpty)
        [("owner", PropValue.str ""), ("tags", PropValue.list [])] =
      initConvState pageEmpty ∧
    (front_matter ctx0 (initConvState pageEmpty)).1 = "" :=
  ⟨c8_theorem.1 ctx0 (initConvState pageEmpty) _ (by decide),
   c8_theorem.2 ctx0 (initConvState pageEmpty) rfl rfl⟩

/-- C3 counterexample: the conversion of
`<div data-macro-name="warning"><p>careful</p></div>` produces
`"\n> [!CAUTION]\n> careful\n\n"` — the markdownify blockquote always ends
with a blank line — which is not the claimed exact string
`"\n> [!CAUTION]\n> careful\n"`. -/
theorem c3_counterexample :
    selfConvert ctx0 30 [warnDiv] (initConvState pageEmpty) =
      Except.ok ("\n> [!CAUTION]\n> careful\n\n", initConvState pageEmpty) ∧
    (("\n> [!CAUTION]\n> careful\n\n" : String) = "\n> [!CAUTION]\n> careful\n") = False :=
  ⟨rfl, eq_false (by decide)⟩

/-- C3 amended: alert-macro divs convert to a blockquote with the typed
marker line prepended, with the mapping info→IMPORTANT, panel→NOTE,
tip→TIP, note→WARNING, warning→CAUTION; the warning scenario element
converts to exactly `"\n> [!CAUTION]\n> careful\n\n"` (one trailing
newline more than the claim's string). -/
theorem c3_theorem :
    (∀ (ctx : Ctx) (pchild : ConvFun) (el : Html) (text : String) (nctx : NodeCtx)
       (pts : List String) (s : ConvState) (m : String),
      el.attr "data-macro-name" = some m →
      (m = "info" ∨ m = "panel" ∨ m = "tip" ∨ m = "note" ∨ m = "warning") →
      convert_divWith ctx pchild el text nctx pts s = .ok (convert_alert el text pts, s)) ∧
    (∀ (el : Html) (text : String) (pts : List String) (m : String),
      el.attr "data-macro-name" = some m →
      convert_alert el text pts =
        "\n> [!" ++ alertTypeMap m ++ "]" ++ convert_blockquote text pts) ∧
    (alertTypeMap "info" = "IMPORTANT" ∧ alertTypeMap "panel" = "NOTE" ∧
     alertTypeMap "tip" = "TIP" ∧ alertTypeMap "note" = "WARNING" ∧
     alertTypeMap "warning" = "CAUTION") ∧
    selfConvert ctx0 30 [warnDiv] (initConvState pageEmpty) =
      Except.ok ("\n> [!CAUTION]\n> careful\n\n", initConvState pageEmpty) := by
  refine ⟨?_, ?_, by decide, rfl⟩
  · intro ctx pchild el text nctx pts s m h hm
    unfold convert_divWith
    simp only [Html.has_attr, h, Option.isSome_some, Option.getD_some, if_true]
    rcases hm with rfl | rfl | rfl | rfl | rfl <;> rfl
  · intro el text pts m h
    unfold convert_alert
    rw [h]
    rfl

theorem c3_witness :
    convert_alert warnDiv "\n\ncareful\n\n" ["[document]"] =
      "\n> [!" ++ alertTypeMap "warning" ++ "]" ++
        convert_blockquote "\n\ncareful\n\n" ["[document]"] :=
  c3_theorem.2.1 warnDiv "\n\ncareful\n\n" ["[document]"] "warning" rfl

/-- C6: the TOC and Jira-table macro handlers re-locate the rendered
fragment in the export-view body; zero or multiple matches return the
element's text unchanged and log a warning, and exactly one match is
recursively converted via `process_tag`. -/
theorem c6_theorem :
    ∀ (ctx : Ctx) (fuel : Nat) (el : Html) (text : String) (pts : List String)
      (s : ConvState),
      (findAllForest (isTagWithClass "div" "toc-macro") s.page.body_export = [] →
        convert_toc ctx fuel el text pts s =
          .ok (text, s.addWarning "Could not find TOC macro. Ignoring.")) ∧
      (∀ t, findAllForest (isTagWithClass "div" "toc-macro") s.page.body_export = [t] →
        convert_toc ctx fuel el text pts s = processTag ctx fuel t {} pts s) ∧
      (∀ t1 t2 rest,
        findAllForest (isTagWithClass "div" "toc-macro") s.page.body_export =
          t1 :: t2 :: rest →
        convert_toc ctx fuel el text pts s =
          .ok (text, s.addWarning "Multiple TOC macros are not supported. Ignoring.")) ∧
      (findAllForest (isTagWithClass "div" "jira-table") s.page.body_export = [] →
        convert_jira_table ctx fuel el text pts s =
          .ok (text, s.addWarning "No Jira table found. Ignoring.")) ∧
      (∀ t, findAllForest (isTagWithClass "div" "jira-table") s.page.body_export = [t] →
        convert_jira_table ctx fuel el text pts s = processTag ctx fuel t {} pts s) ∧
      (∀ t1 t2 rest,
        findAllForest (isTagWithClass "div" "jira-table") s.page.body_export =
          t1 :: t2 :: rest →
        convert_jira_table ctx fuel el text pts s =
          .ok (text, s.addWarning "Multiple Jira tables are not supported. Ignoring.")) := by
  intro ctx fuel el text pts s
  refine ⟨?_, ?_, ?_, ?_, ?_, ?_⟩
  · intro h; unfold convert_toc convert_tocWith; rw [h]
  · intro t h; unfold convert_toc convert_tocWith; rw [h]
  · intro t1 t2 rest h; unfold convert_toc convert_tocWith; rw [h]
  · intro h; unfold convert_jira_table convert_jira_tableWith; rw [h]
  · intro t h; unfold convert_jira_table convert_jira_tableWith; rw [h]
  · intro t1 t2 rest h; unfold convert_jira_table convert_jira_tableWith; rw [h]

theorem c6_witness :
    convert_toc ctx0 20 tocDiv "orig" [] (initConvState pageToc0) =
      .ok ("orig", (initConvState pageToc0).addWarning
        "Could not find TOC macro. Ignoring.") ∧
    convert_toc ctx0 20 tocDiv "orig" [] (initConvState pageToc1) =
      processTag ctx0 20 tocFrag {} [] (initConvState pageToc1) ∧
    convert_toc ctx0 20 tocDiv "orig" [] (initConvState pageToc2) =
      .ok ("orig", (initConvState pageToc2).addWarning
        "Multiple TOC macros are not supported. Ignoring.") :=
  ⟨(c6_theorem ctx0 20 tocDiv "orig" [] (initConvState pageToc0)).1 rfl,
   (c6_theorem ctx0 20 tocDiv "orig" [] (initConvState pageToc1)).2.1 tocFrag rfl,
   (c6_theorem ctx0 20 tocDiv "orig" [] (initConvState pageToc2)).2.2.1
     tocFrag tocFrag [] rfl⟩

/-- Helper for C9: filtering out the rows that do not have exactly two
cells does not change the property extraction — such rows are skipped
without converting anything or contributing a pair. -/
theorem goRowsWith_filter :
    ∀ (sc : List Html → ConvState → ConvResult) (rows : List (List Html)) (s : ConvState),
      goRowsWith sc rows s = goRowsWith sc (rows.filter (fun r => r.length == 2)) s := by
  intro sc rows
  induction rows with
  | nil => intro s; rfl
  | cons row rest ih =>
    intro s
    rcases row with _ | ⟨c0, _ | ⟨c1, _ | ⟨c2, t⟩⟩⟩
    · show goRowsWith sc rest s = _
      rw [show (([] : List Html) :: rest).filter (fun r => r.length == 2) =
            rest.filter (fun r => r.length == 2) from by simp]
      exact ih s
    · show goRowsWith sc rest s = _
      rw [show ([c0] :: rest).filter (fun r => r.length == 2) =
            rest.filter (fun r => r.length == 2) from by simp]
      exact ih s
    · rw [show ([c0, c1] :: rest).filter (fun r => r.length == 2) =
            [c0, c1] :: rest.filter (fun r => r.length == 2) from by simp]
      simp only [goRowsWith]
      simp only [ih]
    · show goRowsWith sc rest s = _
      rw [show ((c0 :: c1 :: c2 :: t) :: rest).filter (fun r => r.length == 2) =
            rest.filter (fun r => r.length == 2) from by simp]
      exact ih s

/-- C9: the `details`-macro property extraction accepts only rows with
exactly two cells — every other row is silently skipped (the extraction
over any row list equals the extraction over just its two-cell rows) —
and a two-cell row is read as the pair (first-cell label text,
converted-and-stripped second cell). -/
theorem c9_theorem :
    (∀ (sc : List Html → ConvState → ConvResult) (rows : List (List Html)) (s : ConvState),
      goRowsWith sc rows s = goRowsWith sc (rows.filter (fun r => r.length == 2)) s) ∧
    (∀ (sc : List Html → ConvState → ConvResult) (c0 c1 : Html)
       (rest : List (List Html)) (s s1 : ConvState) (val : String),
      sc [c1] s = .ok (val, s1) →
      goRowsWith sc ([c0, c1] :: rest) s =
        andThen (goRowsWith sc rest s1) (fun pairs s2 =>
          .ok ((getTextStripNode c0, PropValue.str (pyStrip val)) :: pairs, s2))) := by
  refine ⟨goRowsWith_filter, ?_⟩
  intro sc c0 c1 rest s s1 val hsc
  simp only [goRowsWith]
  rw [hsc]
  rfl

theorem c9_witness :
    goRowsWith (selfConvert ctx0 5)
        [[Html.elem "th" [] [.text "Owner"], Html.elem "td" [] [.text "Alice"]]]
        (initConvState pageEmpty) =
      Except.ok ([("Owner", PropValue.str "Alice")], initConvState pageEmpty) :=
  (c9_theorem.2 (selfConvert ctx0 5) (Html.elem "th" [] [.text "Owner"])
    (Html.elem "td" [] [.text "Alice"]) [] (initConvState pageEmpty)
    (initConvState pageEmpty) "Alice" rfl).trans rfl

/-! ### C4: the conversion engine never reassigns the converter's page -/

theorem preservesPage_error {α : Type} (s : ConvState) (e : ConvErr) :
    PreservesPage s (Except.error e : Except ConvErr (α × ConvState)) := by
  intro a s2 h
  cases h

theorem preservesPage_ok {α : Type} (s s1 : ConvState) (a : α) (h : s1.page = s.page) :
    PreservesPage s (.ok (a, s1)) := by
  intro b s2 heq
  cases heq
  exact h

theorem preservesPage_ok_self {α : Type} (s : ConvState) (a : α) :
    PreservesPage s (.ok (a, s)) :=
  preservesPage_ok s s a rfl

theorem addWarning_page (s : ConvState) (w : String) : (s.addWarning w).page = s.page := rfl

theorem set_page_properties_page (ctx : Ctx) :
    ∀ (kvs : List (String × PropValue)) (s : ConvState),
      (set_page_properties ctx s kvs).page = s.page := by
  intro kvs
  induction kvs with
  | nil => intro s; rfl
  | cons kv rest ih =>
    intro s
    have h1 := ih (if kv.2.truthy then
      { s with page_properties :=
          dictInsert s.page_properties (ctx.sanitize_key none kv.1) kv.2 }
      else s)
    exact h1.trans (by split <;> rfl)

theorem preservesPage_andThen {α β : Type} (s : ConvState)
    (X : Except ConvErr (α × ConvState))
    (F : α → ConvState → Except ConvErr (β × ConvState))
    (hX : PreservesPage s X)
    (hF : ∀ a s1, X = .ok (a, s1) → PreservesPage s1 (F a s1)) :
    PreservesPage s (andThen X F) := by
  intro b s2 h
  cases hX2 : X with
  | error e => rw [hX2] at h; simp only [andThen] at h; exact (Except.noConfusion h)
  | ok pr =>
    obtain ⟨a, s1⟩ := pr
    rw [hX2] at h
    simp only [andThen] at h
    exact (hF a s1 hX2 b s2 h).trans (hX a s1 hX2)

theorem processChildrenWith_pres (pchild : ConvFun)
    (hp : ∀ el nctx pts s, PreservesPage s (pchild el nctx pts s))
    (pt : String) (pattrs : List (String × String)) :
    ∀ (cs : List Html) (prev : Option Html) (idx : Nat) (childTags : List String)
      (s : ConvState),
      PreservesPage s (processChildrenWith pchild pt pattrs prev idx cs childTags s) := by
  intro cs
  induction cs with
  | nil => intro prev idx childTags s; exact preservesPage_ok_self _ _
  | cons c rest ih =>
    intro prev idx childTags s
    unfold processChildrenWith
    split
    · exact ih _ _ _ s
    · exact preservesPage_andThen s _ _ (hp _ _ _ _)
        (fun txt s1 _ => preservesPage_andThen s1 _ _ (ih _ _ _ s1)
          (fun rest2 s2 _ => preservesPage_ok_self _ _))

theorem selfConvertWith_pres (pchild : ConvFun)
    (hp : ∀ el nctx pts s, PreservesPage s (pchild el nctx pts s)) :
    ∀ (nodes : List Html) (s : ConvState),
      PreservesPage s (selfConvertWith pchild nodes s) := by
  intro nodes s
  unfold selfConvertWith
  exact preservesPage_andThen s _ _ (processChildrenWith_pres pchild hp _ _ _ _ _ _ _)
    (fun strs s1 _ => preservesPage_ok_self _ _)

theorem goRowsWith_pres (sc : List Html → ConvState → ConvResult)
    (hsc : ∀ nodes s, PreservesPage s (sc nodes s)) :
    ∀ (rows : List (List Html)) (s : ConvState),
      PreservesPage s (goRowsWith sc rows s) := by
  intro rows
  induction rows with
  | nil => intro s; exact preservesPage_ok_self _ _
  | cons row rest ih =>
    intro s
    unfold goRowsWith
    split
    · exact preservesPage_andThen s _ _ (hsc _ _)
        (fun val s1 _ => preservesPage_andThen s1 _ _ (ih s1)
          (fun pairs s2 _ => preservesPage_ok_self _ _))
    · exact ih s

theorem convert_page_propertiesWith_pres (ctx : Ctx) (pchild : ConvFun)
    (hp : ∀ el nctx pts s, PreservesPage s (pchild el nctx pts s)) :
    ∀ (el : Html) (s : ConvState),
      PreservesPage s (convert_page_propertiesWith ctx pchild el s) := by
  intro el s
  unfold convert_page_propertiesWith
  dsimp only
  split
  · exact preservesPage_ok_self _ _
  · exact preservesPage_andThen s _ _
      (goRowsWith_pres _ (selfConvertWith_pres pchild hp) _ s)
      (fun pairs s1 _ =>
        preservesPage_ok _ _ _ (set_page_properties_page ctx pairs s1))

theorem convert_tocWith_pres (pchild : ConvFun)
    (hp : ∀ el nctx pts s, PreservesPage s (pchild el nctx pts s)) :
    ∀ (el : Html) (text : String) (pts : List String) (s : ConvState),
      PreservesPage s (convert_tocWith pchild el text pts s) := by
  intro el text pts s
  unfold convert_tocWith
  split
  · exact preservesPage_ok _ _ _ (addWarning_page _ _)
  · exact hp _ _ _ _
  · exact preservesPage_ok _ _ _ (addWarning_page _ _)

theorem convert_jira_tableWith_pres (pchild : ConvFun)
    (hp : ∀ el nctx pts s, PreservesPage s (pchild el nctx pts s)) :
    ∀ (el : Html) (text : String) (pts : List String) (s : ConvState),
      PreservesPage s (convert_jira_tableWith pchild el text pts s) := by
  intro el text pts s
  unfold convert_jira_tableWith
  split
  · exact preservesPage_ok _ _ _ (addWarning_page _ _)
  · exact hp _ _ _ _
  · exact preservesPage_ok _ _ _ (addWarning_page _ _)

theorem convert_expand_containerWith_pres (pchild : ConvFun)
    (hp : ∀ el nctx pts s, PreservesPage s (pchild el nctx pts s)) :
    ∀ (el : Html) (pts : List String) (s : ConvState),
      PreservesPage s (convert_expand_containerWith pchild el pts s) := by
  intro el pts s
  unfold convert_expand_containerWith
  refine preservesPage_andThen s _ _ ?_ (fun content s1 _ => preservesPage_ok_self _ _)
  split
  · exact preservesPage_andThen s _ _ (hp _ _ _ _)
      (fun txt s1 _ => preservesPage_ok_self _ _)
  · exact preservesPage_ok_self _ _

theorem convert_jira_issueWith_pres (ctx : Ctx) (pchild : ConvFun)
    (hp : ∀ el nctx pts s, PreservesPage s (pchild el nctx pts s)) :
    ∀ (el : Html) (text : String) (pts : List String) (s : ConvState),
      PreservesPage s (convert_jira_issueWith ctx pchild el text pts s) := by
  intro el text pts s
  unfold convert_jira_issueWith
  dsimp only
  split
  · split
    · exact hp _ _ _ _
    · exact preservesPage_error _ _
  · split
    · exact preservesPage_ok_self _ _
    · split
      · exact preservesPage_ok_self _ _
      · exact preservesPage_ok_self _ _

theorem convert_spanWith_pres (ctx : Ctx) (pchild : ConvFun)
    (hp : ∀ el nctx pts s, PreservesPage s (pchild el nctx pts s)) :
    ∀ (el : Html) (text : String) (pts : List String) (s : ConvState),
      PreservesPage s (convert_spanWith ctx pchild el text pts s) := by
  intro el text pts s
  unfold convert_spanWith
  split
  · exact convert_jira_issueWith_pres ctx pchild hp _ _ _ _
  · exact preservesPage_ok_self _ _

theorem goTableCellsWith_pres (sc : List Html → ConvState → ConvResult)
    (hsc : ∀ nodes s, PreservesPage s (sc nodes s)) :
    ∀ (cells : List Html) (s : ConvState),
      PreservesPage s (goTableCellsWith sc cells s) := by
  intro cells
  induction cells with
  | nil => intro s; exact preservesPage_ok_self _ _
  | cons cell rest ih =>
    intro s
    unfold goTableCellsWith
    exact preservesPage_andThen s _ _ (hsc _ _)
      (fun txt s1 _ => preservesPage_andThen s1 _ _ (ih s1)
        (fun cs s2 _ => preservesPage_ok_self _ _))

theorem goTableRowsWith_pres (sc : List Html → ConvState → ConvResult)
    (hsc : ∀ nodes s, PreservesPage s (sc nodes s)) :
    ∀ (rows : List (List Html)) (s : ConvState),
      PreservesPage s (goTableRowsWith sc rows s) := by
  intro rows
  induction rows with
  | nil => intro s; exact preservesPage_ok_self _ _
  | cons row rest ih =>
    intro s
    unfold goTableRowsWith
    exact preservesPage_andThen s _ _ (goTableCellsWith_pres sc hsc row s)
      (fun cells s1 _ => preservesPage_andThen s1 _ _ (ih s1)
        (fun rows2 s2 _ => preservesPage_ok_self _ _))

theorem tableConvertWith_pres (pchild : ConvFun)
    (hp : ∀ el nctx pts s, PreservesPage s (pchild el nctx pts s)) :
    ∀ (el : Html) (s : ConvState), PreservesPage s (tableConvertWith pchild el s) := by
  intro el s
  unfold tableConvertWith
  refine preservesPage_andThen s _ _
    (goTableRowsWith_pres _ (selfConvertWith_pres pchild hp) _ s) ?_
  intro rendered s1 _
  split
  · exact preservesPage_ok_self _ _
  · exact preservesPage_ok_self _ _

theorem convert_page_properties_reportWith_pres (pchild : ConvFun)
    (hp : ∀ el nctx pts s, PreservesPage s (pchild el nctx pts s)) :
    ∀ (el : Html) (s : ConvState),
      PreservesPage s (convert_page_properties_reportWith pchild el s) := by
  intro el s
  unfold convert_page_properties_reportWith
  dsimp only
  split
  · exact preservesPage_ok_self _ _
  · split
    · exact preservesPage_ok_self _ _
    · exact tableConvertWith_pres pchild hp _ s

theorem convert_tableWith_pres (pchild : ConvFun)
    (hp : ∀ el nctx pts s, PreservesPage s (pchild el nctx pts s)) :
    ∀ (el : Html) (text : String) (pts : List String) (s : ConvState),
      PreservesPage s (convert_tableWith pchild el text pts s) := by
  intro el text pts s
  unfold convert_tableWith
  split
  · exact convert_page_properties_reportWith_pres pchild hp _ s
  · exact tableConvertWith_pres pchild hp _ s

theorem convert_attachmentsWith_pres (ctx : Ctx) (pchild : ConvFun)
    (hp : ∀ el nctx pts s, PreservesPage s (pchild el nctx pts s)) :
    ∀ (el : Html) (text : String) (pts : List String) (s : ConvState),
      PreservesPage s (convert_attachmentsWith ctx pchild el text pts s) := by
  intro el text pts s
  unfold convert_attachmentsWith
  exact preservesPage_andThen s _ _ (convert_tableWith_pres pchild hp _ _ _ s)
    (fun tbl s1 _ => preservesPage_ok_self _ _)

theorem convert_column_layoutWith_pres (pchild : ConvFun)
    (hp : ∀ el nctx pts s, PreservesPage s (pchild el nctx pts s)) :
    ∀ (el : Html) (text : String) (pts : List String) (s : ConvState),
      PreservesPage s (convert_column_layoutWith pchild el text pts s) := by
  intro el text pts s
  unfold convert_column_layoutWith
  dsimp only
  split
  · exact preservesPage_ok_self _ _
  · exact convert_tableWith_pres pchild hp _ _ _ s

theorem convert_div_classDispatch_pres (pchild : ConvFun)
    (hp : ∀ el nctx pts s, PreservesPage s (pchild el nctx pts s)) :
    ∀ (el : Html) (text : String) (pts : List String) (s : ConvState),
      PreservesPage s (convert_div_classDispatch pchild el text pts s) := by
  intro el text pts s
  unfold convert_div_classDispatch
  split
  · exact convert_expand_containerWith_pres pchild hp _ _ s
  · split
    · exact convert_column_layoutWith_pres pchild hp _ _ _ s
    · exact preservesPage_ok_self _ _

theorem convert_divWith_pres (ctx : Ctx) (pchild : ConvFun)
    (hp : ∀ el nctx pts s, PreservesPage s (pchild el nctx pts s)) :
    ∀ (el : Html) (text : String) (nctx : NodeCtx) (pts : List String) (s : ConvState),
      PreservesPage s (convert_divWith ctx pchild el text nctx pts s) := by
  intro el text nctx pts s
  unfold convert_divWith
  repeat' split
  all_goals first
    | exact preservesPage_ok_self _ _
    | exact convert_page_propertiesWith_pres ctx pchild hp _ s
    | exact convert_tocWith_pres pchild hp _ _ _ s
    | exact convert_jira_tableWith_pres pchild hp _ _ _ s
    | exact convert_attachmentsWith_pres ctx pchild hp _ _ _ s
    | exact convert_div_classDispatch_pres pchild hp _ _ _ s

theorem convertTagWith_pres (ctx : Ctx) (pchild : ConvFun) (aF : AFun)
    (hp : ∀ el nctx pts s, PreservesPage s (pchild el nctx pts s))
    (ha : ∀ el text nctx pts s, PreservesPage s (aF el text nctx pts s)) :
    ∀ (el : Html) (text : String) (nctx : NodeCtx) (pts : List String) (s : ConvState),
      PreservesPage s (convertTagWith ctx pchild aF el text nctx pts s) := by
  intro el text nctx pts s
  unfold convertTagWith
  cases htag : el.tagName with
  | none => exact preservesPage_ok_self _ _
  | some t =>
    show PreservesPage s (if t == "div" then convert_divWith ctx pchild el text nctx pts s
      else if t == "span" then convert_spanWith ctx pchild el text pts s
      else if t == "a" then aF el text nctx pts s
      else if t == "img" then
        match convert_img ctx s.page el with
        | .error e => .error e
        | .ok out => .ok (out, s)
      else if t == "table" then convert_tableWith pchild el text pts s
      else if t == "li" then .ok (convert_li el text nctx, s)
      else if t == "pre" then .ok (convert_pre el text, s)
      else if t == "time" then .ok (convert_time el text, s)
      else if t == "sub" then .ok (convert_sub text, s)
      else if t == "sup" then .ok (convert_sup nctx text, s)
      else if t == "p" then .ok (convert_p text pts, s)
      else if t == "blockquote" then .ok (convert_blockquote text pts, s)
      else if t == "h1" then .ok (convert_hn 1 text pts, s)
      else if t == "h2" then .ok (convert_hn 2 text pts, s)
      else if t == "h3" then .ok (convert_hn 3 text pts, s)
      else if t == "h4" then .ok (convert_hn 4 text pts, s)
      else if t == "h5" then .ok (convert_hn 5 text pts, s)
      else if t == "h6" then .ok (convert_hn 6 text pts, s)
      else if t == "br" then .ok (convert_br pts, s)
      else if t == "hr" then .ok (convert_hr, s)
      else if t == "b" || t == "strong" then .ok (mdInlineWrap "**" text pts, s)
      else if t == "em" || t == "i" then .ok (mdInlineWrap "*" text pts, s)
      else if t == "del" || t == "s" then .ok (mdInlineWrap "~~" text pts, s)
      else if t == "code" || t == "kbd" || t == "samp" then
        .ok (mdInlineWrap "`" text pts, s)
      else if t == "ul" || t == "ol" then .ok (md_convert_list text nctx pts, s)
      else if t == "script" || t == "style" then .ok ("", s)
      else .ok (text, s))
    by_cases h1 : (t == "div") = true
    · rw [if_pos h1]; exact convert_divWith_pres ctx pchild hp _ _ _ _ s
    rw [if_neg h1]
    by_cases h2 : (t == "span") = true
    · rw [if_pos h2]; exact convert_spanWith_pres ctx pchild hp _ _ _ s
    rw [if_neg h2]
    by_cases h3 : (t == "a") = true
    · rw [if_pos h3]; exact ha _ _ _ _ s
    rw [if_neg h3]
    by_cases h4 : (t == "img") = true
    · rw [if_pos h4]
      split
      · exact preservesPage_error _ _
      · exact preservesPage_ok_self _ _
    rw [if_neg h4]
    by_cases h5 : (t == "table") = true
    · rw [if_pos h5]; exact convert_tableWith_pres pchild hp _ _ _ s
    rw [if_neg h5]
    by_cases h6 : (t == "li") = true
    · rw [if_pos h6]; exact preservesPage_ok_self _ _
    rw [if_neg h6]
    by_cases h7 : (t == "pre") = true
    · rw [if_pos h7]; exact preservesPage_ok_self _ _
    rw [if_neg h7]
    by_cases h8 : (t == "time") = true
    · rw [if_pos h8]; exact preservesPage_ok_self _ _
    rw [if_neg h8]
    by_cases h9 : (t == "sub") = true
    · rw [if_pos h9]; exact preservesPage_ok_self _ _
    rw [if_neg h9]
    by_cases h10 : (t == "sup") = true
    · rw [if_pos h10]; exact preservesPage_ok_self _ _
    rw [if_neg h10]
    by_cases h11 : (t == "p") = true
    · rw [if_pos h11]; exact preservesPage_ok_self _ _
    rw [if_neg h11]
    by_cases h12 : (t == "blockquote") = true
    · rw [if_pos h12]; exact preservesPage_ok_self _ _
    rw [if_neg h12]
    by_cases h13 : (t == "h1") = true
    · rw [if_pos h13]; exact preservesPage_ok_self _ _
    rw [if_neg h13]
    by_cases h14 : (t == "h2") = true
    · rw [if_pos h14]; exact preservesPage_ok_self _ _
    rw [if_neg h14]
    by_cases h15 : (t == "h3") = true
    · rw [if_pos h15]; exact preservesPage_ok_self _ _
    rw [if_neg h15]
    by_cases h16 : (t == "h4") = true
    · rw [if_pos h16]; exact preservesPage_ok_self _ _
    rw [if_neg h16]
    by_cases h17 : (t == "h5") = true
    · rw [if_pos h17]; exact preservesPage_ok_self _ _
    rw [if_neg h17]
    by_cases h18 : (t == "h6") = true
    · rw [if_pos h18]; exact preservesPage_ok_self _ _
    rw [if_neg h18]
    by_cases h19 : (t == "br") = true
    · rw [if_pos h19]; exact preservesPage_ok_self _ _
    rw [if_neg h19]
    by_cases h20 : (t == "hr") = true
    · rw [if_pos h20]; exact preservesPage_ok_self _ _
    rw [if_neg h20]
    by_cases h21 : (t == "b" || t == "strong") = true
    · rw [if_pos h21]; exact preservesPage_ok_self _ _
    rw [if_neg h21]
    by_cases h22 : (t == "em" || t == "i") = true
    · rw [if_pos h22]; exact preservesPage_ok_self _ _
    rw [if_neg h22]
    by_cases h23 : (t == "del" || t == "s") = true
    · rw [if_pos h23]; exact preservesPage_ok_self _ _
    rw [if_neg h23]
    by_cases h24 : (t == "code" || t == "kbd" || t == "samp") = true
    · rw [if_pos h24]; exact preservesPage_ok_self _ _
    rw [if_neg h24]
    by_cases h25 : (t == "ul" || t == "ol") = true
    · rw [if_pos h25]; exact preservesPage_ok_self _ _
    rw [if_neg h25]
    by_cases h26 : (t == "script" || t == "style") = true
    · rw [if_pos h26]; exact preservesPage_ok_self _ _
    rw [if_neg h26]
    exact preservesPage_ok_self _ _

theorem convert_a_pres (ctx : Ctx) :
    ∀ (fuel : Nat) (el : Html) (text : String) (nctx : NodeCtx) (pts : List String)
      (s : ConvState), PreservesPage s (convert_a ctx fuel el text nctx pts s) := by
  intro fuel
  induction fuel with
  | zero => intro el text nctx pts s; exact preservesPage_error _ _
  | succ f ih =>
    intro el text nctx pts s
    unfold convert_a
    dsimp only
    repeat' split
    all_goals first
      | exact preservesPage_ok_self _ _
      | exact preservesPage_error _ _
      | exact ih _ _ _ _ s

theorem processTag_pres (ctx : Ctx) :
    ∀ (fuel : Nat) (el : Html) (nctx : NodeCtx) (pts : List String) (s : ConvState),
      PreservesPage s (processTag ctx fuel el nctx pts s) := by
  intro fuel
  induction fuel with
  | zero => intro el nctx pts s; exact preservesPage_error _ _
  | succ f ih =>
    intro el nctx pts s
    unfold processTag
    cases el with
    | text str => exact preservesPage_ok_self _ _
    | elem t attrs ch =>
      exact preservesPage_andThen s _ _
        (processChildrenWith_pres (processTag ctx f) ih _ _ _ _ _ _ _)
        (fun strs s1 _ =>
          convertTagWith_pres ctx (processTag ctx f) (convert_a ctx f) ih
            (convert_a_pres ctx f) _ _ _ _ s1)

theorem front_matter_page (ctx : Ctx) (s : ConvState) :
    (front_matter ctx s).2.page = s.page := by
  simp only [front_matter, apply_ite Prod.snd]
  split <;> exact set_page_properties_page ctx _ s

theorem converterMarkdown_pres (ctx : Ctx) (fuel : Nat) (s : ConvState) :
    PreservesPage s (converterMarkdown ctx fuel s) := by
  unfold converterMarkdown
  refine preservesPage_andThen s _ _
    (selfConvertWith_pres (processTag ctx fuel) (fun el nctx pts s2 =>
      processTag_pres ctx fuel el nctx pts s2) _ s) ?_
  intro md_body s1 _
  split
  · split
    · exact preservesPage_error _ _
    · exact preservesPage_ok _ _ _ (front_matter_page ctx s1)
  · exact preservesPage_ok _ _ _ (front_matter_page ctx s1)

/-- C4: `Page.markdown` is a pure computation over the immutable page and
the run's cache context.  A conversion run never reassigns the converter's
page (`s2.page = p`), and re-running `Page.markdown` — which always builds
a fresh `Converter` — on the page held by the used converter reproduces the
byte-identical output. -/
theorem c4_theorem :
    ∀ (ctx : Ctx) (fuel : Nat) (p : Page) (out : String) (s2 : ConvState),
      converterMarkdown ctx fuel (initConvState p) = .ok (out, s2) →
      s2.page = p ∧ page_markdown ctx fuel s2.page = .ok out := by
  intro ctx fuel p out s2 h
  have hp : s2.page = p := converterMarkdown_pres ctx fuel (initConvState p) out s2 h
  refine ⟨hp, ?_⟩
  rw [hp]
  unfold page_markdown
  rw [h]

theorem c4_witness :
    (initConvState pageEmpty).page = pageEmpty ∧
    page_markdown ctx0 3 (initConvState pageEmpty).page = .ok "\n\n" :=
  c4_theorem ctx0 3 pageEmpty "\n\n" (initConvState pageEmpty) rfl
